import Mathlib

/-!
# CrossPoint reader: home screen and library browser

A shallow embedding of `src/activities/home/MyLibraryActivity.cpp` and
`src/activities/home/HomeActivity.cpp`.

* A `std::string` is a list of characters (`Str`), a `char` being the character
  of its code (`char` is unsigned on the target).
* A `std::vector<T>` is a `List T`.
* `size_t` is the 32-bit unsigned type of the target (ESP32): arithmetic on it
  is arithmetic on `Nat` reduced modulo `SIZE_T_MOD`.
* Transition callbacks (`onSelectBook`, `onGoHome`, ...) are recorded as a list
  of events returned next to the new state.
* A tick whose C++ execution is undefined or aborts (index out of range,
  remainder by zero, `std::out_of_range`) returns `none`.
-/

namespace CrossPoint

/-! ## Strings -/

/-- A `std::string`. -/
abbrev Str := List Char

/-- C `tolower` in the "C" locale, on the character code. -/
def tolower (c : Char) : Nat :=
  if 65 ≤ c.toNat ∧ c.toNat ≤ 90 then c.toNat + 32 else c.toNat

/-- The test `str.back() == c`.  On the empty string `back()` is undefined in
C++; the embedding answers `false` there. -/
def backIs (str : Str) (c : Char) : Bool :=
  str.getLast? == some c

/-- The function `std::lexicographical_compare` over two ranges with the
comparison `comp`. -/
def lexicographical_compare {α : Type} (comp : α → α → Bool) : List α → List α → Bool
  | _, [] => false
  | [], _ :: _ => true
  | a :: as, b :: bs =>
    if comp a b then true
    else if comp b a then false
    else lexicographical_compare comp as bs

/-- The inner lambda of `sortFileList`: `tolower(char1) < tolower(char2)`. -/
def charLess (char1 char2 : Char) : Bool :=
  decide (tolower char1 < tolower char2)

/-- The comparator lambda handed to `std::sort` in `sortFileList`. -/
def fileLess (str1 str2 : Str) : Bool :=
  if backIs str1 '/' && !backIs str2 '/' then true
  else if !backIs str1 '/' && backIs str2 '/' then false
  else lexicographical_compare charLess str1 str2

/-- The call `std::sort(first, last, comp)`: it rearranges the range so that no
element is `comp`-less than an element before it.  The embedding uses insertion
sort, the algorithm libstdc++ runs on short ranges; `a` may stay before `b`
when `comp b a` is false. -/
def stdSort {α : Type} (comp : α → α → Bool) (l : List α) : List α :=
  List.insertionSort (fun a b => comp b a = false) l

/-- The function `sortFileList` of `MyLibraryActivity.cpp`. -/
def sortFileList (strs : List Str) : List Str :=
  stdSort fileLess strs

/-- Directories rank before files in `fileLess`. -/
def rank (s : Str) : Nat :=
  if backIs s '/' then 0 else 1

/-! ## `std::string` members and `size_t` -/

/-- One more than the largest `size_t` value of the 32-bit target. -/
def SIZE_T_MOD : Nat := 4294967296

/-- Conversion of an `int` to `size_t`. -/
def toSizeT (x : Int) : Nat :=
  (x % 4294967296).toNat

/-- The member `find_last_of(c)`: the last position holding `c`; `none` is
`std::string::npos`. -/
def find_last_of : Str → Char → Option Nat
  | [], _ => none
  | x :: xs, c =>
    match find_last_of xs c with
    | some i => some (i + 1)
    | none => if x = c then some 0 else none

/-- The expression `str.substr(pos + 1)` for `pos = str.find_last_of(...)`: with
`pos == npos` the sum wraps to `0` and the whole string is returned. -/
def substrAfter (str : Str) (pos : Option Nat) : Str :=
  match pos with
  | some i => str.drop (i + 1)
  | none => str

/-- Modelled from the spec: `StringUtils::checkFileExtension` (util/StringUtils,
not among the sources).  The specification only says that file entries are
filtered by their extension; here a file name has the extension `ext` when it
ends in `ext`.  The listing and loading functions below take the check as a
parameter and this definition is only used to instantiate it. -/
def checkFileExtension (fileName ext : Str) : Bool :=
  ext.isSuffixOf fileName

/-! ## MyLibraryActivity -/

/-- The enum `MyLibraryActivity::Tab`. -/
inductive Tab where
  | Recent
  | Files
  deriving DecidableEq, Repr

/-- One entry of a directory enumeration: what `getName` and `isDirectory`
report for a file handed out by `openNextFile`. -/
structure DirEntry where
  name : Str
  isDirectory : Bool
  deriving DecidableEq, Repr

/-- The logical buttons of `MappedInputManager::Button` read by the two
activities. -/
inductive Button where
  | Back
  | Confirm
  | Left
  | Right
  | Up
  | Down
  deriving DecidableEq, Repr

/-- What the mapped input manager reports during one tick. -/
structure MappedInput where
  isPressed : Button → Bool
  wasPressed : Button → Bool
  wasReleased : Button → Bool
  heldTime : Nat

/-- The collaborators `MyLibraryActivity` reads: the recent-books store, the SD
card and the theme. -/
structure LibraryEnv where
  /-- The list `RECENT_BOOKS.getBooks()`. -/
  books : List Str
  /-- The query `SdMan.exists(path)`. -/
  sdExists : Str → Bool
  /-- The call `SdMan.open(path)` followed by the enumeration of the directory;
  `none` when the path cannot be opened or is not a directory. -/
  openDir : Str → Option (List DirEntry)
  /-- The helper `StringUtils::checkFileExtension`. -/
  checkExt : Str → Str → Bool
  /-- The value `UITheme::getNumberOfItemsPerPage(renderer, true, true, true)`. -/
  pageItems : Int

/-- The data members of `MyLibraryActivity` (task handle and mutex left out). -/
structure MyLibraryActivity where
  currentTab : Tab
  selectorIndex : Nat
  updateRequired : Bool
  bookTitles : List Str
  bookPaths : List Str
  basepath : Str
  files : List Str
  deriving DecidableEq, Repr

/-- The transition callbacks of `MyLibraryActivity`. -/
inductive LibraryEvent where
  | onSelectBook (path : Str) (fromTab : Tab)
  | onGoHome
  deriving DecidableEq, Repr

def SKIP_PAGE_MS : Nat := 700

def GO_HOME_MS : Nat := 1000

def MAX_RECENT_BOOKS : Nat := 20

/-- The body of the enumeration loop of `loadFiles` for one entry: the string
appended to `files`, if any. -/
def listEntry (checkExt : Str → Str → Bool) (e : DirEntry) : Option Str :=
  if e.name.head? = some '.' ∨ e.name = "System Volume Information".toList then none
  else if e.isDirectory then some (e.name ++ ['/'])
  else if checkExt e.name ".epub".toList || checkExt e.name ".xtch".toList ||
      checkExt e.name ".xtc".toList || checkExt e.name ".txt".toList then some e.name
  else none

/-- The listing `loadFiles` leaves in `files`, given the outcome of opening
`basepath`. -/
def listFiles (checkExt : Str → Str → Bool) (root : Option (List DirEntry)) : List Str :=
  match root with
  | none => []
  | some entries => sortFileList (entries.filterMap (listEntry checkExt))

/-- The method `MyLibraryActivity::loadFiles`. -/
def MyLibraryActivity.loadFiles (env : LibraryEnv) (s : MyLibraryActivity) :
    MyLibraryActivity :=
  { s with files := listFiles env.checkExt (env.openDir s.basepath) }

/-- The loop of `MyLibraryActivity::loadRecentBooks` over the stored paths. -/
def loadRecentBooksLoop (sdExists : Str → Bool) :
    List Str → List Str × List Str → List Str × List Str
  | [], acc => acc
  | path :: rest, (titles, paths) =>
    if titles.length ≥ MAX_RECENT_BOOKS then (titles, paths)
    else if !sdExists path then loadRecentBooksLoop sdExists rest (titles, paths)
    else
      let title := substrAfter path (find_last_of path '/')
      loadRecentBooksLoop sdExists rest (titles ++ [title], paths ++ [path])

/-- The method `MyLibraryActivity::loadRecentBooks`. -/
def MyLibraryActivity.loadRecentBooks (env : LibraryEnv) (s : MyLibraryActivity) :
    MyLibraryActivity :=
  let r := loadRecentBooksLoop env.sdExists env.books ([], [])
  { s with bookTitles := r.1, bookPaths := r.2 }

/-- The constructor of `MyLibraryActivity` (MyLibraryActivity.h). -/
def MyLibraryActivity.create (initialTab : Tab) (initialPath : Str) : MyLibraryActivity :=
  { currentTab := initialTab
    selectorIndex := 0
    updateRequired := false
    bookTitles := []
    bookPaths := []
    basepath := if initialPath.isEmpty then ['/'] else initialPath
    files := [] }

/-- The method `MyLibraryActivity::onEnter`. -/
def MyLibraryActivity.onEnter (env : LibraryEnv) (s : MyLibraryActivity) :
    MyLibraryActivity :=
  let s1 := s.loadRecentBooks env
  let s2 := s1.loadFiles env
  { s2 with selectorIndex := 0, updateRequired := true }

/-- The loop of `MyLibraryActivity::findEntry` from index `i` on. -/
def findEntryFrom (name : Str) : List Str → Nat → Nat
  | [], _ => 0
  | f :: rest, i => if f = name then i else findEntryFrom name rest (i + 1)

/-- The method `MyLibraryActivity::findEntry`. -/
def MyLibraryActivity.findEntry (s : MyLibraryActivity) (name : Str) : Nat :=
  findEntryFrom name s.files 0

/-- The list `MyLibraryActivity::render` hands to `UITheme::drawList` on the
current tab, together with `selectorIndex`. -/
def MyLibraryActivity.shownItems (s : MyLibraryActivity) : List Str :=
  if s.currentTab = Tab.Recent then s.bookTitles else s.files

/-- How a block of a `loop` body ends: control falls through to the next
statement, or the method returns. -/
inductive Flow (σ : Type) where
  | next (s : σ)
  | ret (s : σ)

/-- The `Confirm` block of `MyLibraryActivity::loop`. -/
def MyLibraryActivity.confirmBlock (env : LibraryEnv) (inp : MappedInput)
    (s : MyLibraryActivity) (ev : List LibraryEvent) :
    Option (Flow (MyLibraryActivity × List LibraryEvent)) :=
  if inp.wasReleased Button.Confirm then
    if s.currentTab = Tab.Recent then
      if !s.bookPaths.isEmpty && decide (s.selectorIndex < s.bookPaths.length) then
        match s.bookPaths[s.selectorIndex]? with
        | some path => some (Flow.next (s, ev ++ [LibraryEvent.onSelectBook path s.currentTab]))
        | none => none
      else some (Flow.next (s, ev))
    else
      if s.files.isEmpty then some (Flow.ret (s, ev))
      else
        let s1 := if !backIs s.basepath '/' then { s with basepath := s.basepath ++ ['/'] } else s
        match s1.files[s1.selectorIndex]? with
        | none => none
        | some entry =>
          if backIs entry '/' then
            let s2 := { s1 with basepath := s1.basepath ++ entry.take (entry.length - 1) }
            let s3 := s2.loadFiles env
            some (Flow.next ({ s3 with selectorIndex := 0, updateRequired := true }, ev))
          else
            some (Flow.next
              (s1, ev ++ [LibraryEvent.onSelectBook (s1.basepath ++ entry) s1.currentTab]))
  else some (Flow.next (s, ev))

/-- The `Back` block of `MyLibraryActivity::loop`.  The call
`basepath.replace(npos, npos, "")` throws `std::out_of_range`. -/
def MyLibraryActivity.backBlock (env : LibraryEnv) (inp : MappedInput)
    (s : MyLibraryActivity) (ev : List LibraryEvent) :
    Option (MyLibraryActivity × List LibraryEvent) :=
  if inp.wasReleased Button.Back then
    if inp.heldTime < GO_HOME_MS then
      if s.currentTab = Tab.Files ∧ s.basepath ≠ ['/'] then
        let oldPath := s.basepath
        match find_last_of s.basepath '/' with
        | none => none
        | some cut =>
          let erased := s.basepath.take cut
          let s1 := { s with basepath := if erased.isEmpty then ['/'] else erased }
          let s2 := s1.loadFiles env
          let pos := find_last_of oldPath '/'
          let dirName := substrAfter oldPath pos ++ ['/']
          some ({ s2 with selectorIndex := s2.findEntry dirName, updateRequired := true }, ev)
      else some (s, ev ++ [LibraryEvent.onGoHome])
    else some (s, ev)
  else some (s, ev)

/-- The tab-switch and up/down blocks of `MyLibraryActivity::loop`.  The
arithmetic is that of `size_t`; a remainder or quotient by zero is undefined. -/
def MyLibraryActivity.moveBlock (env : LibraryEnv) (inp : MappedInput)
    (s : MyLibraryActivity) : Option MyLibraryActivity :=
  let upReleased := inp.wasReleased Button.Left
  let downReleased := inp.wasReleased Button.Right
  let leftReleased := inp.wasReleased Button.Up
  let rightReleased := inp.wasReleased Button.Down
  let skipPage := decide (inp.heldTime > SKIP_PAGE_MS)
  let pageItems := toSizeT env.pageItems
  let size := s.files.length
  if leftReleased || rightReleased then
    some { s with
      currentTab := if s.currentTab = Tab.Files then Tab.Recent else Tab.Files
      selectorIndex := 0
      updateRequired := true }
  else if upReleased then
    if skipPage then
      if pageItems = 0 ∨ size = 0 then none
      else
        some { s with
          selectorIndex :=
            (((s.selectorIndex / pageItems + (SIZE_T_MOD - 1)) % SIZE_T_MOD * pageItems + size)
              % SIZE_T_MOD) % size
          updateRequired := true }
    else
      if size = 0 then none
      else
        some { s with
          selectorIndex := ((s.selectorIndex + size + (SIZE_T_MOD - 1)) % SIZE_T_MOD) % size
          updateRequired := true }
  else if downReleased then
    if skipPage then
      if pageItems = 0 ∨ size = 0 then none
      else
        some { s with
          selectorIndex := (((s.selectorIndex / pageItems + 1) % SIZE_T_MOD * pageItems)
            % SIZE_T_MOD) % size
          updateRequired := true }
    else
      if size = 0 then none
      else
        some { s with
          selectorIndex := ((s.selectorIndex + 1) % SIZE_T_MOD) % size
          updateRequired := true }
  else some s

/-- The method `MyLibraryActivity::loop`: one tick, returning the new state and
the callbacks invoked, or `none` when the tick does not complete. -/
def MyLibraryActivity.loop (env : LibraryEnv) (inp : MappedInput) (s : MyLibraryActivity) :
    Option (MyLibraryActivity × List LibraryEvent) :=
  if s.currentTab = Tab.Files ∧ inp.isPressed Button.Back = true ∧ inp.heldTime ≥ GO_HOME_MS then
    if s.basepath ≠ ['/'] then
      let s1 := { s with basepath := ['/'] }
      let s2 := s1.loadFiles env
      some ({ s2 with selectorIndex := 0, updateRequired := true }, [])
    else some (s, [])
  else
    match s.confirmBlock env inp [] with
    | none => none
    | some (Flow.ret r) => some r
    | some (Flow.next (s1, ev1)) =>
      match s1.backBlock env inp ev1 with
      | none => none
      | some (s2, ev2) =>
        match s2.moveBlock env inp with
        | none => none
        | some s3 => some (s3, ev2)

/-! ## HomeActivity -/

/-- The struct `RecentBookInfo` built by `HomeActivity::loadRecentBooks`. -/
structure RecentBookInfo where
  title : Str
  author : Str
  coverBmpPath : Str
  path : Str
  deriving DecidableEq, Repr

/-- Modelled from the spec: the data members of `HomeActivity`, whose
declaration (HomeActivity.h) is not among the sources.  The members are those
`HomeActivity.cpp` reads and writes: a selection index (an `int`, compared and
reduced against the `int` menu count), the dirty flag, the list of recent books
and the cover buffer, an exclusively owned byte buffer that is `none` while the
pointer is null. -/
structure HomeActivity where
  selectorIndex : Int
  updateRequired : Bool
  hasContinueReading : Bool
  hasOpdsUrl : Bool
  recentBooks : List RecentBookInfo
  recentsLoading : Bool
  recentsLoaded : Bool
  recentsDisplayed : Bool
  firstRenderDone : Bool
  coverRendered : Bool
  coverBufferStored : Bool
  coverBuffer : Option (List Nat)
  deriving DecidableEq, Repr

/-- The part of `GfxRenderer` the cover buffer works on: the frame buffer
(`none` when `getFrameBuffer()` returns null) and `getBufferSize()`. -/
structure Renderer where
  frameBuffer : Option (List Nat)
  bufferSize : Nat
  deriving DecidableEq, Repr

/-- The transition callbacks of `HomeActivity`. -/
inductive HomeEvent where
  | onSelectBook (path : Str) (fromTab : Tab)
  | onMyLibraryOpen
  | onOpdsBrowserOpen
  | onFileTransferOpen
  | onSettingsOpen
  deriving DecidableEq, Repr

/-- What `UITheme::drawRecentBookCover` did with the arguments it receives by
reference: the new values of the two cover flags and whether it invoked the
`storeCoverBuffer` callback. -/
structure CoverDraw where
  coverRendered : Bool
  coverBufferStored : Bool
  callsStore : Bool

/-- The collaborators `HomeActivity` reads: application state, settings, the
recent-books store, the SD card, the two book parsers and the theme. -/
structure HomeEnv where
  /-- The field `APP_STATE.openEpubPath`. -/
  openEpubPath : Str
  /-- The field `SETTINGS.opdsServerUrl`. -/
  opdsServerUrl : Str
  /-- The list `RECENT_BOOKS.getBooks()`. -/
  books : List Str
  /-- The query `SdMan.exists(path)`. -/
  sdExists : Str → Bool
  /-- The helper `StringUtils::checkFileExtension`. -/
  checkExt : Str → Str → Bool
  /-- The title `Epub::getTitle()` after `load(false)`, empty when there is none. -/
  epubTitle : Str → Str
  /-- The author `Epub::getAuthor()` after `load(false)`. -/
  epubAuthor : Str → Str
  epubThumbBmpPath : Str → Int → Str
  epubGenerateThumbBmp : Str → Int → Bool
  /-- The result of `Xtc::load()`. -/
  xtcLoad : Str → Bool
  /-- The title `Xtc::getTitle()` after a successful load. -/
  xtcTitle : Str → Str
  xtcThumbBmpPath : Str → Int → Str
  xtcGenerateThumbBmp : Str → Int → Bool
  /-- The metric `homeRecentBooksCount` of `UITheme::getMetrics()`. -/
  homeRecentBooksCount : Int
  /-- The metric `homeCoverHeight` of `UITheme::getMetrics()`. -/
  homeCoverHeight : Int
  /-- The effect of `UITheme::drawRecentBookCover` on its reference arguments,
  given the recent books, the selection, the two flags and `bufferRestored`. -/
  drawRecentBookCover : List RecentBookInfo → Int → Bool → Bool → Bool → CoverDraw
  /-- Whether the `malloc` of `storeCoverBuffer` succeeds. -/
  mallocOk : Bool

/-- The method `HomeActivity::getMenuItemCount`. -/
def HomeActivity.getMenuItemCount (s : HomeActivity) : Int :=
  let count : Int := 3
  let count := if !s.recentBooks.isEmpty then count + s.recentBooks.length else count
  let count := if s.hasOpdsUrl then count + 1 else count
  count

/-- The member `resize(n)` of `std::string`: truncation, or padding with NUL. -/
def resize (str : Str) (n : Nat) : Str :=
  str.take n ++ List.replicate (n - str.length) (Char.ofNat 0)

/-- The body of the loop of `HomeActivity::loadRecentBooks` for one existing
path: the entry pushed to `recentBooks`.  The popup callbacks only draw. -/
def loadRecentBook (env : HomeEnv) (coverHeight : Int) (path : Str) : RecentBookInfo :=
  let lastBookFileName : Str :=
    match find_last_of path '/' with
    | some lastSlash => path.drop (lastSlash + 1)
    | none => []
  if env.checkExt lastBookFileName ".epub".toList then
    let lastBookTitle : Str := if !(env.epubTitle path).isEmpty then env.epubTitle path else []
    let lastBookAuthor : Str := if !(env.epubAuthor path).isEmpty then env.epubAuthor path else []
    let coverBmpPath := env.epubThumbBmpPath path coverHeight
    let coverBmpPath :=
      if !env.sdExists coverBmpPath then
        if !env.epubGenerateThumbBmp path coverHeight then [] else coverBmpPath
      else coverBmpPath
    { title := lastBookTitle, author := lastBookAuthor, coverBmpPath := coverBmpPath,
      path := path }
  else if env.checkExt lastBookFileName ".xtch".toList ||
      env.checkExt lastBookFileName ".xtc".toList then
    let loaded := env.xtcLoad path
    let lastBookTitle : Str :=
      if loaded then (if !(env.xtcTitle path).isEmpty then env.xtcTitle path else []) else []
    let coverBmpPath : Str :=
      if loaded then
        let thumb := env.xtcThumbBmpPath path coverHeight
        if !env.sdExists thumb then
          if !env.xtcGenerateThumbBmp path coverHeight then [] else thumb
        else thumb
      else []
    let lastBookTitle : Str :=
      if lastBookTitle.isEmpty then
        if env.checkExt lastBookFileName ".xtch".toList then
          resize lastBookFileName ((lastBookFileName.length + (SIZE_T_MOD - 5)) % SIZE_T_MOD)
        else if env.checkExt lastBookFileName ".xtc".toList then
          resize lastBookFileName ((lastBookFileName.length + (SIZE_T_MOD - 4)) % SIZE_T_MOD)
        else lastBookFileName
      else lastBookTitle
    { title := lastBookTitle, author := [], coverBmpPath := coverBmpPath, path := path }
  else
    { title := [], author := [], coverBmpPath := [], path := path }

/-- The loop of `HomeActivity::loadRecentBooks` over the stored paths; the
comparison `recentBooks.size() >= maxBooks` is made in `size_t`. -/
def loadRecentBooksFrom (env : HomeEnv) (maxBooks coverHeight : Int) :
    List Str → List RecentBookInfo → List RecentBookInfo
  | [], recentBooks => recentBooks
  | path :: rest, recentBooks =>
    if recentBooks.length ≥ toSizeT maxBooks then recentBooks
    else if !env.sdExists path then loadRecentBooksFrom env maxBooks coverHeight rest recentBooks
    else
      loadRecentBooksFrom env maxBooks coverHeight rest
        (recentBooks ++ [loadRecentBook env coverHeight path])

/-- The method `HomeActivity::loadRecentBooks`, or `none` when it does not
return.  The call `recentBooks.reserve(std::min(static_cast<int>(books.size()),
maxBooks))` receives a negative `int` as a `size_t` beyond `max_size()` and
throws `std::length_error`. -/
def HomeActivity.loadRecentBooks (env : HomeEnv) (maxBooks coverHeight : Int)
    (s : HomeActivity) : Option HomeActivity :=
  if min (env.books.length : Int) maxBooks < 0 then none
  else
    some { s with
      recentBooks := loadRecentBooksFrom env maxBooks coverHeight env.books []
      recentsLoaded := true
      recentsLoading := false
      updateRequired := true }

/-- The method `HomeActivity::onEnter`. -/
def HomeActivity.onEnter (env : HomeEnv) (s : HomeActivity) : HomeActivity :=
  { s with
    hasContinueReading := !env.openEpubPath.isEmpty && env.sdExists env.openEpubPath
    hasOpdsUrl := decide (env.opdsServerUrl.length > 0)
    selectorIndex := 0
    updateRequired := true }

/-- The method `HomeActivity::freeCoverBuffer`. -/
def HomeActivity.freeCoverBuffer (s : HomeActivity) : HomeActivity :=
  { s with coverBuffer := none, coverBufferStored := false }

/-- The method `HomeActivity::storeCoverBuffer`: the returned flag and the new
state.  The copy takes `bufferSize` bytes of the frame buffer. -/
def HomeActivity.storeCoverBuffer (r : Renderer) (mallocOk : Bool) (s : HomeActivity) :
    Bool × HomeActivity :=
  match r.frameBuffer with
  | none => (false, s)
  | some frameBuffer =>
    let s1 := s.freeCoverBuffer
    if mallocOk then (true, { s1 with coverBuffer := some (frameBuffer.take r.bufferSize) })
    else (false, s1)

/-- The method `HomeActivity::restoreCoverBuffer`: the returned flag and the
renderer afterwards.  The copy overwrites the first `bufferSize` bytes of the
frame buffer. -/
def HomeActivity.restoreCoverBuffer (s : HomeActivity) (r : Renderer) : Bool × Renderer :=
  match s.coverBuffer with
  | none => (false, r)
  | some coverBuffer =>
    match r.frameBuffer with
    | none => (false, r)
    | some frameBuffer =>
      (true, { r with
        frameBuffer := some (coverBuffer.take r.bufferSize ++ frameBuffer.drop r.bufferSize) })

/-- The method `HomeActivity::loop`: one tick, returning the new state and the
callbacks invoked.  The comparison `selectorIndex < recentBooks.size()` is made
in `size_t`, where a negative `int` converts to a value no vector size reaches:
it holds when the index is non-negative and below the size.  The remainders are
those of `int` (truncated). -/
def HomeActivity.loop (inp : MappedInput) (s : HomeActivity) : HomeActivity × List HomeEvent :=
  let prevPressed := inp.wasPressed Button.Up || inp.wasPressed Button.Left
  let nextPressed := inp.wasPressed Button.Down || inp.wasPressed Button.Right
  let menuCount := s.getMenuItemCount
  if inp.wasReleased Button.Confirm then
    let menuSelectedIndex : Int := s.selectorIndex - s.recentBooks.length
    let myLibraryIdx : Int := 0
    let opdsLibraryIdx : Int := if s.hasOpdsUrl then 1 else -1
    let fileTransferIdx : Int := if s.hasOpdsUrl then 2 else 1
    let settingsIdx : Int := if s.hasOpdsUrl then 3 else 2
    if h : 0 ≤ s.selectorIndex ∧ s.selectorIndex.toNat < s.recentBooks.length then
      (s, [HomeEvent.onSelectBook (s.recentBooks[s.selectorIndex.toNat]).path Tab.Recent])
    else if menuSelectedIndex = myLibraryIdx then (s, [HomeEvent.onMyLibraryOpen])
    else if menuSelectedIndex = opdsLibraryIdx then (s, [HomeEvent.onOpdsBrowserOpen])
    else if menuSelectedIndex = fileTransferIdx then (s, [HomeEvent.onFileTransferOpen])
    else if menuSelectedIndex = settingsIdx then (s, [HomeEvent.onSettingsOpen])
    else (s, [])
  else if prevPressed then
    ({ s with
      selectorIndex := Int.tmod (s.selectorIndex + menuCount - 1) menuCount
      updateRequired := true }, [])
  else if nextPressed then
    ({ s with
      selectorIndex := Int.tmod (s.selectorIndex + 1) menuCount
      updateRequired := true }, [])
  else (s, [])

/-- The labels `HomeActivity::render` hands to `UITheme::drawButtonMenu`. -/
def menuItems (hasOpdsUrl : Bool) : List String :=
  let items := ["Browse Files", "File Transfer", "Settings"]
  if hasOpdsUrl then items.insertIdx 1 "Calibre Library" else items

/-- The last statement of `HomeActivity::render`: the first pass marks itself
done and asks for another one. -/
def HomeActivity.finishRender (s : HomeActivity) : HomeActivity :=
  if !s.firstRenderDone then { s with firstRenderDone := true, updateRequired := true }
  else s

/-- The method `HomeActivity::render`, as far as the activity state goes (the
pixels drawn are not tracked): `r` is the renderer the pass draws on.  The pass
does not return (`none`) when its call of `loadRecentBooks` does not. -/
def HomeActivity.render (env : HomeEnv) (r : Renderer) (s : HomeActivity) :
    Option HomeActivity :=
  let bufferRestored := s.coverBufferStored && (s.restoreCoverBuffer r).1
  let s1 : Option HomeActivity :=
    if s.hasContinueReading then
      if s.recentsLoaded then
        let s2 := { s with recentsDisplayed := true }
        let d := env.drawRecentBookCover s2.recentBooks s2.selectorIndex s2.coverRendered
          s2.coverBufferStored bufferRestored
        let s3 := if d.callsStore then (s2.storeCoverBuffer r env.mallocOk).2 else s2
        some { s3 with coverRendered := d.coverRendered,
                       coverBufferStored := d.coverBufferStored }
      else if !s.recentsLoading && s.firstRenderDone then
        let s2 := { s with recentsLoading := true }
        s2.loadRecentBooks env env.homeRecentBooksCount env.homeCoverHeight
      else some s
    else some s
  s1.map HomeActivity.finishRender

/-- One iteration of `HomeActivity::displayTaskLoop`: a pending update is taken
(the flag cleared) and the screen rendered. -/
def HomeActivity.displayTaskPass (env : HomeEnv) (r : Renderer) (s : HomeActivity) :
    Option HomeActivity :=
  if s.updateRequired then HomeActivity.render env r { s with updateRequired := false }
  else some s

/-- The callback bound to a menu label, as the specification pairs them. -/
def labelAction (label : String) : Option HomeEvent :=
  if label = "Browse Files" then some HomeEvent.onMyLibraryOpen
  else if label = "Calibre Library" then some HomeEvent.onOpdsBrowserOpen
  else if label = "File Transfer" then some HomeEvent.onFileTransferOpen
  else if label = "Settings" then some HomeEvent.onSettingsOpen
  else none

/-! ## The order the specification speaks of -/

/-- The name with every character replaced by its `tolower` code. -/
def ciKey (s : Str) : List Nat :=
  s.map tolower

/-- Case-insensitive lexicographic "less than or equal": the two names agree
after `tolower`, or the first one is lexicographically smaller after `tolower`. -/
def ciLe (a b : Str) : Prop :=
  ciKey a = ciKey b ∨ List.Lex (· < ·) (ciKey a) (ciKey b)

/-- A listing with the directories (names ending in `/`) first, then the files,
each of the two groups in case-insensitive lexicographic order. -/
def DirsFirstSorted (l : List Str) : Prop :=
  ∃ dirs files : List Str, l = dirs ++ files ∧
    (∀ d ∈ dirs, backIs d '/' = true) ∧ (∀ f ∈ files, backIs f '/' = false) ∧
    dirs.Chain' ciLe ∧ files.Chain' ciLe

/-- The specification of the listing: the directory entry `e` is shown as the
name `x`.  Hidden entries and the volume-information entry are never shown; a
directory is shown as its name followed by `/`; any other entry is shown under
its own name when its extension is one of the four allowed ones. -/
def Listed (checkExt : Str → Str → Bool) (e : DirEntry) (x : Str) : Prop :=
  e.name.head? ≠ some '.' ∧ e.name ≠ "System Volume Information".toList ∧
    ((e.isDirectory = true ∧ x = e.name ++ "/".toList) ∨
      (e.isDirectory = false ∧ x = e.name ∧
        ∃ ext ∈ [".epub".toList, ".xtch".toList, ".xtc".toList, ".txt".toList],
          checkExt e.name ext = true))

instance (checkExt : Str → Str → Bool) (e : DirEntry) (x : Str) :
    Decidable (Listed checkExt e x) := by
  unfold Listed
  infer_instance

/-- The directory of the listing scenario: file `b.txt`, directory `A`, entry
`.hidden`, file `z.epub`. -/
def scenarioEntries (hiddenIsDirectory : Bool) : List DirEntry :=
  [⟨"b.txt".toList, false⟩, ⟨"A".toList, true⟩, ⟨".hidden".toList, hiddenIsDirectory⟩,
    ⟨"z.epub".toList, false⟩]

/-- An SD card whose every directory holds the scenario entries and on which
every path exists; no recent books. -/
def scenarioEnv : LibraryEnv :=
  { books := []
    sdExists := fun _ => true
    openDir := fun _ => some (scenarioEntries false)
    checkExt := checkFileExtension
    pageItems := 10 }

/-- The states of `HomeActivity` reachable from `onEnter` on a freshly
constructed activity (its `recentBooks` vector empty; the other members are left
open, their initialisers being in HomeActivity.h) by loop ticks, iterations of
the display task that return, whose render pass is where the recent books are
loaded, and further calls of `onEnter`. -/
inductive HomeReachable : HomeActivity → Prop where
  | enter (env : HomeEnv) (s0 : HomeActivity) (h : s0.recentBooks = []) :
    HomeReachable (s0.onEnter env)
  | tick (inp : MappedInput) (s : HomeActivity) (h : HomeReachable s) :
    HomeReachable (s.loop inp).1
  | display (env : HomeEnv) (r : Renderer) (s t : HomeActivity) (h : HomeReachable s)
      (hpass : s.displayTaskPass env r = some t) : HomeReachable t
  | reenter (env : HomeEnv) (s : HomeActivity) (h : HomeReachable s) :
    HomeReachable (s.onEnter env)

/-- Modelled from the spec: a freshly constructed `HomeActivity` (the member
initialisers are in HomeActivity.h, not among the sources): selection 0, every
flag false, no recent books, no cover buffer. -/
def HomeActivity.create : HomeActivity :=
  { selectorIndex := 0
    updateRequired := false
    hasContinueReading := false
    hasOpdsUrl := false
    recentBooks := []
    recentsLoading := false
    recentsLoaded := false
    recentsDisplayed := false
    firstRenderDone := false
    coverRendered := false
    coverBufferStored := false
    coverBuffer := none }

/-- A device with one recent book, `/books/a.epub`, whose EPUB metadata holds no
title; every path exists on the card and no OPDS URL is configured. -/
def untitledEpubEnv : HomeEnv :=
  { openEpubPath := "/books/a.epub".toList
    opdsServerUrl := []
    books := ["/books/a.epub".toList]
    sdExists := fun _ => true
    checkExt := checkFileExtension
    epubTitle := fun _ => []
    epubAuthor := fun _ => []
    epubThumbBmpPath := fun _ _ => "/.crosspoint/thumb.bmp".toList
    epubGenerateThumbBmp := fun _ _ => true
    xtcLoad := fun _ => false
    xtcTitle := fun _ => []
    xtcThumbBmpPath := fun _ _ => []
    xtcGenerateThumbBmp := fun _ _ => false
    homeRecentBooksCount := 3
    homeCoverHeight := 100
    drawRecentBookCover := fun _ _ rendered stored _ => ⟨rendered, stored, false⟩
    mallocOk := true }

/-- A tick in which exactly the button `b` was released after `held` ms. -/
def releaseInput (b : Button) (held : Nat) : MappedInput :=
  { isPressed := fun _ => false
    wasPressed := fun _ => false
    wasReleased := fun x => decide (x = b)
    heldTime := held }

/-- The invariant carried along the reachable states: the recent books are only
there once loaded, and the selection is inside the menu. -/
def HomeInv (s : HomeActivity) : Prop :=
  (s.recentsLoaded = false → s.recentBooks = []) ∧
    0 ≤ s.selectorIndex ∧ s.selectorIndex < s.getMenuItemCount

/-- The home screen of `untitledEpubEnv` after `onEnter` and one iteration of
the display task, which draws the shell. -/
def homeShell : HomeActivity :=
  { HomeActivity.create with
    updateRequired := true
    hasContinueReading := true
    firstRenderDone := true }

/-- The home screen of `untitledEpubEnv` after `onEnter` and two iterations of
the display task: the first draws the shell, the second loads the recent books. -/
def homeAfterLoad : HomeActivity :=
  { homeShell with
    recentBooks := [{ title := [], author := [],
                      coverBmpPath := "/.crosspoint/thumb.bmp".toList,
                      path := "/books/a.epub".toList }]
    recentsLoaded := true }

/-- One iteration of `MyLibraryActivity::displayTaskLoop`: a pending update is
taken (the flag cleared) and the screen rendered; `render` is `const`. -/
def MyLibraryActivity.displayTaskPass (s : MyLibraryActivity) : MyLibraryActivity :=
  if s.updateRequired then { s with updateRequired := false } else s

/-- A tick in which `Back` is held down for `held` ms and nothing is released. -/
def holdBackInput (held : Nat) : MappedInput :=
  { isPressed := fun x => decide (x = Button.Back)
    wasPressed := fun _ => false
    wasReleased := fun _ => false
    heldTime := held }

/-- The scenario SD card with one recent book, `/books/a.epub`. -/
def oneBookEnv : LibraryEnv :=
  { scenarioEnv with books := ["/books/a.epub".toList] }

/-- An SD card whose every directory holds the single file `x.epub`. -/
def fileOnlyEnv : LibraryEnv :=
  { scenarioEnv with openDir := fun _ => some [⟨"x.epub".toList, false⟩] }

/-- The library opened on the Recent tab of `oneBookEnv`: one recent book, three
entries in the root directory. -/
def recentTabEntered : MyLibraryActivity :=
  (MyLibraryActivity.create Tab.Recent ['/']).onEnter oneBookEnv

/-- The library opened on the Files tab in the directory `/A` of `fileOnlyEnv`,
after the display task has drawn it. -/
def filesTabDrawn : MyLibraryActivity :=
  ((MyLibraryActivity.create Tab.Files "/A".toList).onEnter fileOnlyEnv).displayTaskPass

/-- The library on the Files tab at the root of the scenario SD card with the
second entry selected, after the display task has drawn it. -/
def rootSecondEntry : MyLibraryActivity :=
  { currentTab := Tab.Files
    selectorIndex := 1
    updateRequired := false
    bookTitles := []
    bookPaths := []
    basepath := ['/']
    files := ["A/".toList, "b.txt".toList, "z.epub".toList] }

/-- The library constructed on the Files tab with the initial path `books`, a
path without any `/`. -/
def relativePathEntered : MyLibraryActivity :=
  (MyLibraryActivity.create Tab.Files "books".toList).onEnter scenarioEnv

/-- An SD card whose every directory holds the directories `A` and `B` and the
file `b.txt`. -/
def twoDirsEnv : LibraryEnv :=
  { scenarioEnv with
    openDir := fun _ => some [⟨"b.txt".toList, false⟩, ⟨"B".toList, true⟩, ⟨"A".toList, true⟩] }

/-- The library opened on the Files tab in the directory `/B` of `twoDirsEnv`. -/
def inDirB : MyLibraryActivity :=
  (MyLibraryActivity.create Tab.Files "/B".toList).onEnter twoDirsEnv

/-- The device of `untitledEpubEnv` with the recent book `/books/b.xtc` instead,
an XTC file that does not load. -/
def untitledXtcEnv : HomeEnv :=
  { untitledEpubEnv with books := ["/books/b.xtc".toList] }

/-- The method `HomeActivity::render` with its calls of `loadRecentBooks`
counted: the new state and the number of calls made during the pass, or `none`
when the pass does not return. -/
def HomeActivity.renderCounting (env : HomeEnv) (r : Renderer) (s : HomeActivity) :
    Option (HomeActivity × Nat) :=
  let bufferRestored := s.coverBufferStored && (s.restoreCoverBuffer r).1
  let p : Option (HomeActivity × Nat) :=
    if s.hasContinueReading then
      if s.recentsLoaded then
        let s2 := { s with recentsDisplayed := true }
        let d := env.drawRecentBookCover s2.recentBooks s2.selectorIndex s2.coverRendered
          s2.coverBufferStored bufferRestored
        let s3 := if d.callsStore then (s2.storeCoverBuffer r env.mallocOk).2 else s2
        some ({ s3 with coverRendered := d.coverRendered,
                        coverBufferStored := d.coverBufferStored }, 0)
      else if !s.recentsLoading && s.firstRenderDone then
        let s2 := { s with recentsLoading := true }
        (s2.loadRecentBooks env env.homeRecentBooksCount env.homeCoverHeight).map
          (fun t => (t, 1))
      else some (s, 0)
    else some (s, 0)
  p.map (fun q => (q.1.finishRender, q.2))

/-- One iteration of `HomeActivity::displayTaskLoop` with the calls of
`loadRecentBooks` counted. -/
def HomeActivity.displayTaskPassCounting (env : HomeEnv) (r : Renderer) (s : HomeActivity) :
    Option (HomeActivity × Nat) :=
  if s.updateRequired then HomeActivity.renderCounting env r { s with updateRequired := false }
  else some (s, 0)

/-- A tick of `HomeActivity::loop`, as a step from one state to the next. -/
inductive HomeTick : HomeActivity → HomeActivity → Prop where
  | tick (inp : MappedInput) (s : HomeActivity) : HomeTick s (s.loop inp).1

/-- A step of the home screen: a loop tick, an iteration of the display task
that returns, or a call of `onEnter`. -/
inductive HomeStep : HomeActivity → HomeActivity → Prop where
  | tick (inp : MappedInput) (s : HomeActivity) : HomeStep s (s.loop inp).1
  | display (env : HomeEnv) (r : Renderer) (s t : HomeActivity)
      (hpass : s.displayTaskPass env r = some t) : HomeStep s t
  | enter (env : HomeEnv) (s : HomeActivity) : HomeStep s (s.onEnter env)

/-- An SD card whose directories hold no entries; no recent books. -/
def emptyCardEnv : LibraryEnv :=
  { scenarioEnv with openDir := fun _ => some [] }

/-- The library opened on the Files tab at the root of the empty card. -/
def emptyCardEntered : MyLibraryActivity :=
  (MyLibraryActivity.create Tab.Files ['/']).onEnter emptyCardEnv

/-- Between two render passes only loop ticks run: they keep the bootstrapping
flags and a pending update. -/
def SameFlags (s t : HomeActivity) : Prop :=
  t.firstRenderDone = s.firstRenderDone ∧ t.recentsLoaded = s.recentsLoaded ∧
    t.recentsLoading = s.recentsLoading ∧ t.hasContinueReading = s.hasContinueReading ∧
    (s.updateRequired = true → t.updateRequired = true)

/-- An SD card whose root holds the directories `0` and `A`, the directory `/A`
holding the single file `x.epub`. -/
def nestedEnv : LibraryEnv :=
  { scenarioEnv with
    openDir := fun path =>
      if path = ['/'] then some [⟨"0".toList, true⟩, ⟨"A".toList, true⟩]
      else if path = "/A".toList then some [⟨"x.epub".toList, false⟩]
      else none }

/-- The library opened on the Files tab in the directory `/A` of `nestedEnv`,
after the display task has drawn it. -/
def inDirA : MyLibraryActivity :=
  ((MyLibraryActivity.create Tab.Files "/A".toList).onEnter nestedEnv).displayTaskPass

/-- The state `inDirA` after a Confirm release on its file `x.epub`: the tick
has appended `/` to `basepath`. -/
def afterOpenFile : MyLibraryActivity :=
  { inDirA with basepath := "/A/".toList }

/-! ## Theorems -/

theorem lexicographical_compare_charLess (a b : Str) :
    lexicographical_compare charLess a b = true ↔ List.Lex (· < ·) (ciKey a) (ciKey b) := by
  induction a generalizing b with
  | nil =>
    cases b with
    | nil => simp [lexicographical_compare, ciKey]
    | cons y ys => simp [lexicographical_compare, ciKey, List.Lex.nil]
  | cons x xs ih =>
    cases b with
    | nil => simp [lexicographical_compare, ciKey]
    | cons y ys =>
      simp only [lexicographical_compare, charLess, ciKey, List.map_cons, decide_eq_true_eq]
      have ih2 := ih ys
      simp only [ciKey] at ih2
      generalize tolower x = m
      generalize tolower y = n
      by_cases h1 : m < n
      · simp [h1, List.Lex.rel h1]
      · by_cases h2 : n < m
        · simp only [h1, h2, if_true, if_false]
          constructor
          · intro h; cases h
          · intro h
            cases h with
            | cons h => omega
            | rel h => omega
        · have he : m = n := by omega
          subst he
          simp only [h1, if_false]
          rw [List.Lex.cons_iff]
          exact ih2

theorem fileLess_iff (a b : Str) :
    fileLess a b = true ↔
      rank a < rank b ∨ (rank a = rank b ∧ List.Lex (· < ·) (ciKey a) (ciKey b)) := by
  unfold fileLess rank
  rw [← lexicographical_compare_charLess]
  cases backIs a '/' <;> cases backIs b '/' <;> simp

theorem fileLess_asymm (a b : Str) (h : fileLess a b = true) : fileLess b a = false := by
  rw [fileLess_iff] at h
  cases hba : fileLess b a with
  | false => rfl
  | true =>
    rw [fileLess_iff] at hba
    rcases h with h | ⟨h, hl⟩ <;> rcases hba with h2 | ⟨h2, hl2⟩
    · omega
    · omega
    · omega
    · exact absurd hl2 (asymm hl)

theorem fileLess_conn (a b c : Str) (h : fileLess a c = true) :
    fileLess a b = true ∨ fileLess b c = true := by
  rw [fileLess_iff] at h
  rw [fileLess_iff, fileLess_iff]
  rcases h with h | ⟨h, hl⟩
  · rcases Nat.lt_trichotomy (rank a) (rank b) with h1 | h1 | h1
    · exact Or.inl (Or.inl h1)
    · exact Or.inr (Or.inl (by omega))
    · exact Or.inr (Or.inl (by omega))
  · rcases Nat.lt_trichotomy (rank a) (rank b) with h1 | h1 | h1
    · exact Or.inl (Or.inl h1)
    · rcases IsOrderConnected.conn (ciKey a) (ciKey b) (ciKey c) hl with h2 | h2
      · exact Or.inl (Or.inr ⟨h1, h2⟩)
      · exact Or.inr (Or.inr ⟨by omega, h2⟩)
    · exact Or.inr (Or.inl (by omega))

theorem stdSort_fileLess_pairwise (strs : List Str) :
    (sortFileList strs).Pairwise (fun a b => fileLess b a = false) := by
  haveI : IsTotal Str (fun a b => fileLess b a = false) :=
    ⟨fun a b => by
      cases h : fileLess b a with
      | false => exact Or.inl rfl
      | true => exact Or.inr (fileLess_asymm b a h)⟩
  haveI : IsTrans Str (fun a b => fileLess b a = false) :=
    ⟨fun a b c hab hbc => by
      cases h : fileLess c a with
      | false => rfl
      | true =>
        rcases fileLess_conn c b a h with h1 | h1
        · simp [h1] at hbc
        · simp [h1] at hab⟩
  exact List.sorted_insertionSort (fun a b => fileLess b a = false) strs

theorem sortFileList_perm (strs : List Str) : (sortFileList strs).Perm strs :=
  List.perm_insertionSort _ strs

theorem ciLe_of_not_fileLess (a b : Str) (hr : backIs a '/' = backIs b '/')
    (h : fileLess b a = false) : ciLe a b := by
  have hn : ¬ List.Lex (· < ·) (ciKey b) (ciKey a) := by
    intro hl
    have : fileLess b a = true := (fileLess_iff b a).2 (Or.inr ⟨by simp [rank, hr], hl⟩)
    simp [h] at this
  haveI : IsTrichotomous ℕ (fun x1 x2 : ℕ => x1 < x2) := ⟨Nat.lt_trichotomy⟩
  rcases (List.Lex.isTrichotomous (fun x1 x2 : ℕ => x1 < x2)).trichotomous
    (ciKey a) (ciKey b) with h1 | h1 | h1
  · exact Or.inr h1
  · exact Or.inl h1
  · exact absurd h1 hn

theorem split_of_pairwise (l : List Str) (h : l.Pairwise (fun a b => fileLess b a = false)) :
    l = l.filter (fun s => backIs s '/') ++ l.filter (fun s => !backIs s '/') := by
  induction l with
  | nil => rfl
  | cons x xs ih =>
    rw [List.pairwise_cons] at h
    cases hx : backIs x '/' with
    | true =>
      simp only [List.filter_cons, hx, if_true, Bool.not_true, List.cons_append]
      exact congrArg _ (ih h.2)
    | false =>
      have hall : ∀ y ∈ xs, backIs y '/' = false := by
        intro y hy
        cases hyd : backIs y '/' with
        | false => rfl
        | true =>
          have : fileLess y x = true := by simp [fileLess, hx, hyd]
          simp [h.1 y hy] at this
      have h1 : xs.filter (fun s => backIs s '/') = [] := by
        rw [List.filter_eq_nil_iff]
        intro y hy
        simp [hall y hy]
      have h2 : xs.filter (fun s => !backIs s '/') = xs := by
        rw [List.filter_eq_self]
        intro y hy
        simp [hall y hy]
      simp [List.filter_cons, hx, h1, h2]

theorem dirsFirstSorted_of_pairwise (l : List Str)
    (h : l.Pairwise (fun a b => fileLess b a = false)) : DirsFirstSorted l := by
  refine ⟨l.filter (fun s => backIs s '/'), l.filter (fun s => !backIs s '/'),
    split_of_pairwise l h, ?_, ?_, ?_, ?_⟩
  · intro d hd
    exact (List.mem_filter.1 hd).2
  · intro f hf
    simpa using (List.mem_filter.1 hf).2
  · apply List.Pairwise.chain'
    refine List.Pairwise.imp_of_mem ?_ (h.sublist (List.filter_sublist l))
    intro a b ha hb hab
    have h1 := (List.mem_filter.1 ha).2
    have h2 := (List.mem_filter.1 hb).2
    exact ciLe_of_not_fileLess a b (by simp_all) hab
  · apply List.Pairwise.chain'
    refine List.Pairwise.imp_of_mem ?_ (h.sublist (List.filter_sublist l))
    intro a b ha hb hab
    have h1 := (List.mem_filter.1 ha).2
    have h2 := (List.mem_filter.1 hb).2
    exact ciLe_of_not_fileLess a b (by simp_all) hab

/-- C1: for every list of non-empty names, `sortFileList` returns a permutation
of its input in which every directory entry (name ending in `/`) stands before
every file entry, and inside the directory entries and inside the file entries
each name is less than or equal to the next one in case-insensitive
lexicographic order. -/
theorem sortFileList_dirs_first_sorted (strs : List Str) (_hne : ∀ s ∈ strs, s ≠ []) :
    (sortFileList strs).Perm strs ∧ DirsFirstSorted (sortFileList strs) :=
  ⟨sortFileList_perm strs, dirsFirstSorted_of_pairwise _ (stdSort_fileLess_pairwise strs)⟩

/-- Witness for C1 on a listing with two directories and three files. -/
theorem sortFileList_dirs_first_sorted_witness :
    (∀ s ∈ ["b.txt".toList, "A/".toList, "z.epub".toList, "a/".toList, "B.txt".toList],
        s ≠ []) ∧
      (sortFileList ["b.txt".toList, "A/".toList, "z.epub".toList, "a/".toList,
          "B.txt".toList]).Perm
        ["b.txt".toList, "A/".toList, "z.epub".toList, "a/".toList, "B.txt".toList] ∧
      DirsFirstSorted (sortFileList ["b.txt".toList, "A/".toList, "z.epub".toList,
        "a/".toList, "B.txt".toList]) :=
  ⟨by decide, sortFileList_dirs_first_sorted _ (by decide)⟩

/-! ### The file listing -/

theorem listEntry_eq_some_iff (checkExt : Str → Str → Bool) (e : DirEntry) (x : Str) :
    listEntry checkExt e = some x ↔ Listed checkExt e x := by
  unfold listEntry Listed
  by_cases h1 : e.name.head? = some '.'
  · simp [h1]
  · by_cases h2 : e.name = "System Volume Information".toList
    · simp [h2]
    · cases hd : e.isDirectory with
      | true =>
        simp only [h1, h2, or_self, if_false, if_true, ne_eq, not_false_eq_true, true_and]
        constructor
        · intro h
          exact Or.inl (Option.some.inj h).symm
        · intro h
          rcases h with h | h
          · rw [h]; rfl
          · exact absurd h.1 (by simp)
      | false =>
        simp only [h1, h2, or_self, if_false, ne_eq, not_false_eq_true, true_and,
          Bool.false_eq_true, false_and, false_or, List.mem_cons, List.mem_singleton,
          exists_eq_or_imp, exists_eq_left, List.not_mem_nil, Bool.or_eq_true]
        by_cases hc : ((checkExt e.name ".epub".toList = true ∨
            checkExt e.name ".xtch".toList = true) ∨ checkExt e.name ".xtc".toList = true) ∨
            checkExt e.name ".txt".toList = true
        · rw [if_pos hc]
          constructor
          · intro h
            refine ⟨(Option.some.inj h).symm, ?_⟩
            tauto
          · rintro ⟨h, -⟩
            rw [h]
        · rw [if_neg hc]
          constructor
          · intro h; cases h
          · rintro ⟨-, h⟩
            exact absurd (by tauto) hc

theorem count_listFiles (checkExt : Str → Str → Bool) (entries : List DirEntry) (x : Str) :
    (listFiles checkExt (some entries)).countP (fun f => decide (f = x)) =
      entries.countP (fun e => decide (Listed checkExt e x)) := by
  unfold listFiles
  simp only
  rw [(sortFileList_perm (entries.filterMap (listEntry checkExt))).countP_eq,
    List.countP_filterMap]
  apply List.countP_congr
  intro e _
  simp only [decide_eq_true_eq, ← listEntry_eq_some_iff]
  cases h : listEntry checkExt e <;> simp

/-- C2: when `basepath` opens as a directory with the given entries,
`loadFiles` leaves in `files` exactly the shown names (a directory as its name
followed by `/`, a file with an allowed extension under its own name, hidden
entries and the volume-information entry left out, each as often as it is
enumerated), directories first and each group in case-insensitive order; the
directory holding file `b.txt`, directory `A`, entry `.hidden` and file `z.epub`
is listed as `A/`, `b.txt`, `z.epub` (given that the extension check accepts
`b.txt` as `.txt` and `z.epub` as `.epub`). -/
theorem loadFiles_listing (env : LibraryEnv) (s : MyLibraryActivity) (entries : List DirEntry)
    (hopen : env.openDir s.basepath = some entries) :
    (∀ x, (s.loadFiles env).files.countP (fun f => decide (f = x)) =
        entries.countP (fun e => decide (Listed env.checkExt e x))) ∧
      DirsFirstSorted (s.loadFiles env).files ∧
      (∀ hiddenIsDirectory, entries = scenarioEntries hiddenIsDirectory →
        env.checkExt "b.txt".toList ".txt".toList = true →
        env.checkExt "z.epub".toList ".epub".toList = true →
        (s.loadFiles env).files = ["A/".toList, "b.txt".toList, "z.epub".toList]) := by
  refine ⟨?_, ?_, ?_⟩
  · intro x
    simp only [MyLibraryActivity.loadFiles, hopen]
    exact count_listFiles env.checkExt entries x
  · simp only [MyLibraryActivity.loadFiles, hopen, listFiles]
    exact dirsFirstSorted_of_pairwise _ (stdSort_fileLess_pairwise _)
  · intro hid he h1 h2
    subst he
    have hf : (scenarioEntries hid).filterMap (listEntry env.checkExt) =
        ["b.txt".toList, "A/".toList, "z.epub".toList] := by
      have h1c : env.checkExt ['b', '.', 't', 'x', 't'] ['.', 't', 'x', 't'] = true := h1
      have h2c : env.checkExt ['z', '.', 'e', 'p', 'u', 'b'] ['.', 'e', 'p', 'u', 'b'] = true :=
        h2
      simp [scenarioEntries, listEntry, h1c, h2c]
    simp only [MyLibraryActivity.loadFiles, hopen, listFiles, hf]
    decide

/-- Witness for C2: the scenario directory on the scenario SD card. -/
theorem loadFiles_listing_witness :
    scenarioEnv.openDir (MyLibraryActivity.create Tab.Files ['/']).basepath =
        some (scenarioEntries false) ∧
      ((MyLibraryActivity.create Tab.Files ['/']).loadFiles scenarioEnv).files =
        ["A/".toList, "b.txt".toList, "z.epub".toList] :=
  ⟨rfl, (loadFiles_listing scenarioEnv (MyLibraryActivity.create Tab.Files ['/'])
    (scenarioEntries false) rfl).2.2 false rfl (by decide) (by decide)⟩

/-! ### The cover buffer -/

/-- C3: if `storeCoverBuffer` succeeds while the frame buffer holds `F` (of the
display buffer size), then in every later state whose cover buffer has not been
touched (no `freeCoverBuffer`, no `storeCoverBuffer`), whatever the frame buffer
`G` holds by then, `restoreCoverBuffer` returns true and leaves the frame buffer
equal to `F`. -/
theorem cover_buffer_round_trip (r : Renderer) (F : List Nat) (mallocOk : Bool)
    (s s1 : HomeActivity) (hF : r.frameBuffer = some F) (hlen : F.length = r.bufferSize)
    (hstore : s.storeCoverBuffer r mallocOk = (true, s1))
    (s2 : HomeActivity) (r2 : Renderer) (G : List Nat)
    (hkeep : s2.coverBuffer = s1.coverBuffer) (hsize : r2.bufferSize = r.bufferSize)
    (hG : r2.frameBuffer = some G) (hGlen : G.length = r.bufferSize) :
    s2.restoreCoverBuffer r2 = (true, { r2 with frameBuffer := some F }) := by
  unfold HomeActivity.storeCoverBuffer at hstore
  rw [hF] at hstore
  cases mallocOk with
  | false => simp at hstore
  | true =>
    simp only [if_true, Prod.mk.injEq, true_and] at hstore
    subst hstore
    simp only [HomeActivity.restoreCoverBuffer, hkeep, hG, hsize]
    have h1 : List.take r.bufferSize (List.take r.bufferSize F) = F := by
      rw [List.take_take, Nat.min_self, ← hlen, List.take_length]
    have h2 : List.drop r.bufferSize G = [] := by
      rw [← hGlen, List.drop_length]
    rw [h1, h2, List.append_nil]

/-- Witness for C3: a four-byte frame buffer stored, overwritten, restored. -/
theorem cover_buffer_round_trip_witness :
    (HomeActivity.create.storeCoverBuffer ⟨some [1, 2, 3, 4], 4⟩ true).1 = true ∧
      (HomeActivity.create.storeCoverBuffer ⟨some [1, 2, 3, 4], 4⟩ true).2.restoreCoverBuffer
          ⟨some [9, 9, 9, 9], 4⟩ = (true, ⟨some [1, 2, 3, 4], 4⟩) :=
  ⟨rfl, cover_buffer_round_trip ⟨some [1, 2, 3, 4], 4⟩ [1, 2, 3, 4] true HomeActivity.create
    (HomeActivity.create.storeCoverBuffer ⟨some [1, 2, 3, 4], 4⟩ true).2 rfl rfl rfl
    (HomeActivity.create.storeCoverBuffer ⟨some [1, 2, 3, 4], 4⟩ true).2
    ⟨some [9, 9, 9, 9], 4⟩ [9, 9, 9, 9] rfl rfl rfl rfl⟩

/-! ### The home screen selection -/

theorem getMenuItemCount_eq (s : HomeActivity) :
    s.getMenuItemCount = 3 + (s.recentBooks.length : Int) + (if s.hasOpdsUrl then 1 else 0) := by
  unfold HomeActivity.getMenuItemCount
  cases hb : s.recentBooks with
  | nil => cases s.hasOpdsUrl <;> simp
  | cons b bs => cases s.hasOpdsUrl <;> simp

theorem getMenuItemCount_ge (s : HomeActivity) : 3 ≤ s.getMenuItemCount := by
  rw [getMenuItemCount_eq]
  have : (0 : Int) ≤ (s.recentBooks.length : Int) := Int.ofNat_nonneg _
  split <;> omega

theorem loop_prev_selectorIndex (inp : MappedInput) (s : HomeActivity)
    (h0 : 0 ≤ s.selectorIndex)
    (hc : inp.wasReleased Button.Confirm = false)
    (hp : (inp.wasPressed Button.Up || inp.wasPressed Button.Left) = true) :
    (s.loop inp).1.selectorIndex = (s.selectorIndex - 1) % s.getMenuItemCount := by
  have hge := getMenuItemCount_ge s
  simp only [HomeActivity.loop, hc, hp, if_true, Bool.false_eq_true, if_false]
  rw [Int.tmod_eq_emod (by omega) (by omega)]
  have : s.selectorIndex + s.getMenuItemCount - 1 = s.selectorIndex - 1 + s.getMenuItemCount := by
    omega
  rw [this, Int.add_emod_self]

theorem loop_next_selectorIndex (inp : MappedInput) (s : HomeActivity)
    (h0 : 0 ≤ s.selectorIndex)
    (hc : inp.wasReleased Button.Confirm = false)
    (hp : (inp.wasPressed Button.Up || inp.wasPressed Button.Left) = false)
    (hn : (inp.wasPressed Button.Down || inp.wasPressed Button.Right) = true) :
    (s.loop inp).1.selectorIndex = (s.selectorIndex + 1) % s.getMenuItemCount := by
  have hge := getMenuItemCount_ge s
  simp only [HomeActivity.loop, hc, hp, hn, if_true, Bool.false_eq_true, if_false]
  rw [Int.tmod_eq_emod (by omega) (by omega)]

theorem loop_frame (inp : MappedInput) (s : HomeActivity) :
    (s.loop inp).1.recentBooks = s.recentBooks ∧ (s.loop inp).1.hasOpdsUrl = s.hasOpdsUrl ∧
      (s.loop inp).1.recentsLoaded = s.recentsLoaded := by
  unfold HomeActivity.loop
  simp only
  split
  · split_ifs <;> simp
  · split_ifs <;> simp

theorem loop_count (inp : MappedInput) (s : HomeActivity) :
    (s.loop inp).1.getMenuItemCount = s.getMenuItemCount := by
  obtain ⟨h1, h2, -⟩ := loop_frame inp s
  rw [getMenuItemCount_eq, getMenuItemCount_eq, h1, h2]

theorem homeInv_loop (inp : MappedInput) (s : HomeActivity) (h : HomeInv s) :
    HomeInv (s.loop inp).1 := by
  obtain ⟨hl, h0, h1⟩ := h
  obtain ⟨f1, -, f3⟩ := loop_frame inp s
  have hge := getMenuItemCount_ge s
  refine ⟨by rw [f1, f3]; exact hl, ?_⟩
  rw [loop_count]
  cases hc : inp.wasReleased Button.Confirm with
  | true =>
    have : (s.loop inp).1 = s := by
      unfold HomeActivity.loop
      simp only [hc, if_true]
      split_ifs <;> rfl
    rw [this]
    exact ⟨h0, h1⟩
  | false =>
    cases hp : (inp.wasPressed Button.Up || inp.wasPressed Button.Left) with
    | true =>
      rw [loop_prev_selectorIndex inp s h0 hc hp]
      exact ⟨Int.emod_nonneg _ (by omega), Int.emod_lt_of_pos _ (by omega)⟩
    | false =>
      cases hn : (inp.wasPressed Button.Down || inp.wasPressed Button.Right) with
      | true =>
        rw [loop_next_selectorIndex inp s h0 hc hp hn]
        exact ⟨Int.emod_nonneg _ (by omega), Int.emod_lt_of_pos _ (by omega)⟩
      | false =>
        have : (s.loop inp).1 = s := by
          simp [HomeActivity.loop, hc, hp, hn]
        rw [this]
        exact ⟨h0, h1⟩

theorem storeCoverBuffer_fields (r : Renderer) (mallocOk : Bool) (s : HomeActivity) :
    (s.storeCoverBuffer r mallocOk).2.selectorIndex = s.selectorIndex ∧
      (s.storeCoverBuffer r mallocOk).2.hasOpdsUrl = s.hasOpdsUrl ∧
      (s.storeCoverBuffer r mallocOk).2.recentBooks = s.recentBooks ∧
      (s.storeCoverBuffer r mallocOk).2.recentsLoaded = s.recentsLoaded := by
  unfold HomeActivity.storeCoverBuffer HomeActivity.freeCoverBuffer
  split
  · exact ⟨rfl, rfl, rfl, rfl⟩
  · split <;> exact ⟨rfl, rfl, rfl, rfl⟩

theorem finishRender_fields (s : HomeActivity) :
    s.finishRender.selectorIndex = s.selectorIndex ∧
      s.finishRender.hasOpdsUrl = s.hasOpdsUrl ∧
      s.finishRender.recentBooks = s.recentBooks ∧
      s.finishRender.recentsLoaded = s.recentsLoaded := by
  unfold HomeActivity.finishRender
  split <;> exact ⟨rfl, rfl, rfl, rfl⟩

theorem homeInv_render (env : HomeEnv) (r : Renderer) (s t : HomeActivity) (h : HomeInv s)
    (hr : s.render env r = some t) : HomeInv t := by
  obtain ⟨hl, h0, h1⟩ := h
  have key : ∀ u : HomeActivity, u.selectorIndex = s.selectorIndex →
      u.hasOpdsUrl = s.hasOpdsUrl →
      (u.recentBooks = s.recentBooks ∧ u.recentsLoaded = s.recentsLoaded ∨
        s.recentBooks = [] ∧ u.recentsLoaded = true) → HomeInv u := by
    intro t e1 e2 e3
    rcases e3 with ⟨e3, e4⟩ | ⟨e3, e4⟩
    · refine ⟨by rw [e3, e4]; exact hl, by rw [e1]; exact h0, ?_⟩
      rw [getMenuItemCount_eq, e1, e2, e3, ← getMenuItemCount_eq]
      exact h1
    · refine ⟨by simp [e4], by rw [e1]; exact h0, ?_⟩
      rw [getMenuItemCount_eq, e3] at h1
      rw [getMenuItemCount_eq, e1, e2]
      have : (0 : Int) ≤ (t.recentBooks.length : Int) := Int.ofNat_nonneg _
      simp only [List.length_nil, Nat.cast_zero] at h1
      omega
  unfold HomeActivity.render at hr
  simp only [Option.map_eq_some'] at hr
  obtain ⟨u, hu, rfl⟩ := hr
  obtain ⟨g1, g2, g3, g4⟩ := finishRender_fields u
  have hu2 : u.selectorIndex = s.selectorIndex ∧ u.hasOpdsUrl = s.hasOpdsUrl ∧
      (u.recentBooks = s.recentBooks ∧ u.recentsLoaded = s.recentsLoaded ∨
        s.recentBooks = [] ∧ u.recentsLoaded = true) := by
    split_ifs at hu with c1 c2 c3 c4
    · simp only [Option.some.injEq] at hu
      subst hu
      obtain ⟨k1, k2, k3, k4⟩ := storeCoverBuffer_fields r env.mallocOk
        { s with recentsDisplayed := true }
      exact ⟨k1, k2, Or.inl ⟨k3, k4⟩⟩
    · simp only [Option.some.injEq] at hu
      subst hu
      exact ⟨rfl, rfl, Or.inl ⟨rfl, rfl⟩⟩
    · unfold HomeActivity.loadRecentBooks at hu
      split_ifs at hu
      simp only [Option.some.injEq] at hu
      subst hu
      have hfalse : s.recentsLoaded = false := by simpa using c2
      exact ⟨rfl, rfl, Or.inr ⟨hl hfalse, rfl⟩⟩
    · simp only [Option.some.injEq] at hu
      subst hu
      exact ⟨rfl, rfl, Or.inl ⟨rfl, rfl⟩⟩
    · simp only [Option.some.injEq] at hu
      subst hu
      exact ⟨rfl, rfl, Or.inl ⟨rfl, rfl⟩⟩
  obtain ⟨e1, e2, e3⟩ := hu2
  apply key
  · exact g1.trans e1
  · exact g2.trans e2
  · rcases e3 with ⟨e3, e4⟩ | ⟨e3, e4⟩
    · exact Or.inl ⟨g3.trans e3, g4.trans e4⟩
    · exact Or.inr ⟨e3, g4.trans e4⟩

theorem homeInv_displayTaskPass (env : HomeEnv) (r : Renderer) (s t : HomeActivity)
    (h : HomeInv s) (hp : s.displayTaskPass env r = some t) : HomeInv t := by
  unfold HomeActivity.displayTaskPass at hp
  split at hp
  · apply homeInv_render env r _ t _ hp
    obtain ⟨hl, h0, h1⟩ := h
    refine ⟨hl, h0, ?_⟩
    rw [getMenuItemCount_eq] at h1 ⊢
    exact h1
  · simp only [Option.some.injEq] at hp
    subst hp
    exact h

theorem homeInv_onEnter (env : HomeEnv) (s : HomeActivity)
    (h : s.recentsLoaded = false → s.recentBooks = []) : HomeInv (s.onEnter env) := by
  refine ⟨h, le_refl _, ?_⟩
  have := getMenuItemCount_ge (s.onEnter env)
  show (0 : Int) < _
  omega

theorem homeInv_of_reachable (s : HomeActivity) (h : HomeReachable s) : HomeInv s := by
  induction h with
  | enter env s0 h => exact homeInv_onEnter env s0 (fun _ => h)
  | tick inp s _ ih => exact homeInv_loop inp s ih
  | display env r s t _ hpass ih => exact homeInv_displayTaskPass env r s t ih hpass
  | reenter env s _ ih => exact homeInv_onEnter env s ih.1

/-- C4: in every state reachable from `onEnter` by loop ticks and iterations of
the display task (whose render pass loads the recent books), `0 <= selectorIndex <
getMenuItemCount()`, the count being 3 plus the number of recent books plus 1
when an OPDS URL is configured; a tick with a previous press (and no confirm
release) takes the index to `(index - 1) mod count`, a tick with a next press
(and neither of the other two) to `(index + 1) mod count`. -/
theorem home_selection_invariant (s : HomeActivity) (h : HomeReachable s) :
    (0 ≤ s.selectorIndex ∧ s.selectorIndex < s.getMenuItemCount) ∧
      s.getMenuItemCount =
        3 + (s.recentBooks.length : Int) + (if s.hasOpdsUrl then 1 else 0) ∧
      (∀ inp : MappedInput, inp.wasReleased Button.Confirm = false →
        (inp.wasPressed Button.Up || inp.wasPressed Button.Left) = true →
        (s.loop inp).1.selectorIndex = (s.selectorIndex - 1) % s.getMenuItemCount) ∧
      (∀ inp : MappedInput, inp.wasReleased Button.Confirm = false →
        (inp.wasPressed Button.Up || inp.wasPressed Button.Left) = false →
        (inp.wasPressed Button.Down || inp.wasPressed Button.Right) = true →
        (s.loop inp).1.selectorIndex = (s.selectorIndex + 1) % s.getMenuItemCount) := by
  obtain ⟨-, h0, h1⟩ := homeInv_of_reachable s h
  exact ⟨⟨h0, h1⟩, getMenuItemCount_eq s,
    fun inp hc hp => loop_prev_selectorIndex inp s h0 hc hp,
    fun inp hc hp hn => loop_next_selectorIndex inp s h0 hc hp hn⟩

/-- Witness for C4: the home screen once the recent books are loaded. -/
theorem home_selection_invariant_witness :
    HomeReachable homeAfterLoad ∧
      (0 ≤ homeAfterLoad.selectorIndex ∧
        homeAfterLoad.selectorIndex < homeAfterLoad.getMenuItemCount) :=
  ⟨HomeReachable.display untitledEpubEnv ⟨none, 0⟩ homeShell homeAfterLoad
      (HomeReachable.display untitledEpubEnv ⟨none, 0⟩ _ homeShell
        (HomeReachable.enter untitledEpubEnv HomeActivity.create rfl) (by decide))
      (by decide),
    (home_selection_invariant homeAfterLoad
      (HomeReachable.display untitledEpubEnv ⟨none, 0⟩ homeShell homeAfterLoad
        (HomeReachable.display untitledEpubEnv ⟨none, 0⟩ _ homeShell
          (HomeReachable.enter untitledEpubEnv HomeActivity.create rfl) (by decide))
        (by decide))).1⟩

/-! ### Confirm on the home screen -/

/-- C7: in a state with `0 <= selectorIndex < getMenuItemCount()`, a tick with a
Confirm release leaves the state (the selection included) as it is and invokes
exactly one callback: with the index below the number of recent books, the
book-open callback with the path of `recentBooks[selectorIndex]`; otherwise,
with `j = selectorIndex - number of recent books`, the action of the `j`-th label
that `render` hands to the button menu (the label exists). -/
theorem home_confirm_dispatch (inp : MappedInput) (s : HomeActivity)
    (hc : inp.wasReleased Button.Confirm = true)
    (h0 : 0 ≤ s.selectorIndex) (h1 : s.selectorIndex < s.getMenuItemCount) :
    (s.loop inp).1 = s ∧
      ∃ e : HomeEvent, (s.loop inp).2 = [e] ∧
        (s.selectorIndex < s.recentBooks.length →
          ∃ book, s.recentBooks[s.selectorIndex.toNat]? = some book ∧
            e = HomeEvent.onSelectBook book.path Tab.Recent) ∧
        ((s.recentBooks.length : Int) ≤ s.selectorIndex →
          ∃ label, (menuItems s.hasOpdsUrl)[(s.selectorIndex - s.recentBooks.length).toNat]? =
              some label ∧ labelAction label = some e) := by
  rw [getMenuItemCount_eq] at h1
  by_cases hb : s.selectorIndex < s.recentBooks.length
  · have hlt : s.selectorIndex.toNat < s.recentBooks.length := by omega
    have hcond : 0 ≤ s.selectorIndex ∧ s.selectorIndex.toNat < s.recentBooks.length := ⟨h0, hlt⟩
    refine ⟨by simp [HomeActivity.loop, hc, hcond], ?_⟩
    refine ⟨HomeEvent.onSelectBook (s.recentBooks[s.selectorIndex.toNat]).path Tab.Recent,
      by simp [HomeActivity.loop, hc, hcond], ?_, ?_⟩
    · intro _
      exact ⟨s.recentBooks[s.selectorIndex.toNat], List.getElem?_eq_getElem hlt, rfl⟩
    · intro hge
      omega
  · have hcond : ¬ (0 ≤ s.selectorIndex ∧ s.selectorIndex.toNat < s.recentBooks.length) := by
      omega
    obtain ⟨j, hj⟩ : ∃ j : Nat, s.selectorIndex - s.recentBooks.length = (j : Int) :=
      ⟨(s.selectorIndex - s.recentBooks.length).toNat, by omega⟩
    cases ho : s.hasOpdsUrl with
    | true =>
      rw [ho] at h1
      have hj4 : j < 4 := by simp only [if_true] at h1; omega
      interval_cases j
      all_goals
        refine ⟨?_, ?_⟩
        · unfold HomeActivity.loop
          simp only [hc, hcond, ho, hj, if_true, dite_false]
          split_ifs <;> rfl
        · simp only [HomeActivity.loop, hc, hcond, ho, hj, if_true, dite_false]
          refine ⟨_, by norm_num; rfl, fun h => absurd h hb, fun _ => ?_⟩
          simp [menuItems, labelAction]
    | false =>
      rw [ho] at h1
      have hj3 : j < 3 := by simp only [Bool.false_eq_true, if_false] at h1; omega
      interval_cases j
      all_goals
        refine ⟨?_, ?_⟩
        · unfold HomeActivity.loop
          simp only [hc, hcond, ho, hj, if_true, dite_false]
          split_ifs <;> rfl
        · simp only [HomeActivity.loop, hc, hcond, ho, hj, if_true, dite_false]
          refine ⟨_, by norm_num; rfl, fun h => absurd h hb, fun _ => ?_⟩
          simp [menuItems, labelAction]

/-- Witness for C7: Confirm on the first entry of the loaded home screen opens
the recent book. -/
theorem home_confirm_dispatch_witness :
    ((releaseInput Button.Confirm 0).wasReleased Button.Confirm = true ∧
      0 ≤ homeAfterLoad.selectorIndex ∧
      homeAfterLoad.selectorIndex < homeAfterLoad.getMenuItemCount) ∧
      (homeAfterLoad.loop (releaseInput Button.Confirm 0)).1 = homeAfterLoad :=
  ⟨⟨by decide, by decide, by decide⟩,
    (home_confirm_dispatch (releaseInput Button.Confirm 0) homeAfterLoad (by decide)
      (by decide) (by decide)).1⟩

/-! ### The library: up and down on the Recent tab -/

/-- C5, the code at the failing input: on the Recent tab with one recent book
and three entries in the root directory, a short Down release takes the
selection index from 0 to 1, which is the length of the list shown on the tab,
because the step is reduced modulo `files.size()`. -/
theorem recent_tab_down_leaves_list :
    recentTabEntered.currentTab = Tab.Recent ∧ recentTabEntered.selectorIndex = 0 ∧
      recentTabEntered.shownItems = ["a.epub".toList] ∧ recentTabEntered.files.length = 3 ∧
      recentTabEntered.loop oneBookEnv (releaseInput Button.Right 0) =
        some ({ recentTabEntered with selectorIndex := 1 }, []) ∧
      (recentTabEntered.loop oneBookEnv (releaseInput Button.Right 0)).map
        (fun x => decide (x.1.selectorIndex < x.1.shownItems.length)) = some false := by
  decide

/-- On the Files tab the step is in range: an up or down release that completes
leaves the selection index below `files.size()`. -/
theorem moveBlock_index_lt (env : LibraryEnv) (inp : MappedInput) (s t : MyLibraryActivity)
    (h : s.moveBlock env inp = some t)
    (htab : (inp.wasReleased Button.Up || inp.wasReleased Button.Down) = false)
    (hmove : (inp.wasReleased Button.Left || inp.wasReleased Button.Right) = true) :
    t.selectorIndex < s.files.length ∧ t.files = s.files ∧ t.currentTab = s.currentTab := by
  unfold MyLibraryActivity.moveBlock at h
  simp only [htab, Bool.false_eq_true, if_false] at h
  split_ifs at h with h1 h2 h3 h4 h5 h6 h7 h8
  all_goals first
    | (simp only [Option.some.injEq] at h
       subst h
       exact ⟨Nat.mod_lt _ (by omega), rfl, rfl⟩)
    | (exfalso; simp_all)

/-! ### The library: the dirty flag -/

/-- C9, the code at the failing input: on the Files tab in `/A` with the file
`x.epub` selected and the dirty flag clear, a Confirm release appends `/` to
`basepath`, invokes the book-open callback and leaves the dirty flag clear. -/
theorem confirm_file_changes_basepath_silently :
    filesTabDrawn.basepath = "/A".toList ∧ filesTabDrawn.updateRequired = false ∧
      filesTabDrawn.loop fileOnlyEnv (releaseInput Button.Confirm 0) =
        some ({ filesTabDrawn with basepath := "/A/".toList },
          [LibraryEvent.onSelectBook "/A/x.epub".toList Tab.Files]) := by
  decide

/-! ### The recent books of the home screen -/

/-- C10, the code at the failing input: the recent book `/books/a.epub` exists
and its EPUB metadata holds no title; it is added to `recentBooks` with an empty
title, although its file name `a.epub` is not empty. -/
theorem untitled_epub_gets_empty_title :
    (HomeActivity.create.loadRecentBooks untitledEpubEnv 3 100).map
        (fun t => t.recentBooks) =
      some [{ title := [], author := [], coverBmpPath := "/.crosspoint/thumb.bmp".toList,
              path := "/books/a.epub".toList }] := by
  decide

/-- The XTC branch of `loadRecentBooks` does fall back to the file name: the
recent book `/books/b.xtc` without metadata is listed under the title `b`. -/
theorem untitled_xtc_gets_file_name :
    (HomeActivity.create.loadRecentBooks untitledXtcEnv 3 100).map
        (fun t => t.recentBooks) =
      some [{ title := "b".toList, author := [], coverBmpPath := [],
              path := "/books/b.xtc".toList }] := by
  decide

/-! ### The library: long hold on Back -/

/-- C8, counterexample: at the root with the second entry selected (the state
reached from `onEnter` by one Down release and a redraw), a tick with Back held
for 1000 ms changes nothing, so the selection index stays 1. -/
theorem long_back_at_root_keeps_selection :
    (((MyLibraryActivity.create Tab.Files ['/']).onEnter scenarioEnv).loop scenarioEnv
        (releaseInput Button.Right 0)).map (fun x => x.1.displayTaskPass) =
        some rootSecondEntry ∧
      rootSecondEntry.currentTab = Tab.Files ∧
      (holdBackInput 1000).isPressed Button.Back = true ∧
      (holdBackInput 1000).heldTime ≥ 1000 ∧
      rootSecondEntry.loop scenarioEnv (holdBackInput 1000) = some (rootSecondEntry, []) ∧
      rootSecondEntry.selectorIndex = 1 := by
  decide

/-- C8, amended: on the Files tab, a tick in which Back is pressed with held
time of at least 1000 ms, taken away from the root, sets `basepath` to `/`,
reloads the listing of the root directory, sets the selection index to 0 and
sets the dirty flag; taken at the root it changes nothing. -/
theorem long_back_goes_to_root (env : LibraryEnv) (inp : MappedInput) (s : MyLibraryActivity)
    (htab : s.currentTab = Tab.Files) (hback : inp.isPressed Button.Back = true)
    (hheld : inp.heldTime ≥ 1000) :
    (s.basepath ≠ ['/'] →
      ∃ s1, s.loop env inp = some (s1, []) ∧ s1.basepath = ['/'] ∧
        s1.files = listFiles env.checkExt (env.openDir ['/']) ∧ s1.selectorIndex = 0 ∧
        s1.updateRequired = true ∧ s1.currentTab = Tab.Files) ∧
      (s.basepath = ['/'] → s.loop env inp = some (s, [])) := by
  have hcond : s.currentTab = Tab.Files ∧ inp.isPressed Button.Back = true ∧
      inp.heldTime ≥ GO_HOME_MS := ⟨htab, hback, hheld⟩
  constructor
  · intro hne
    refine ⟨{ (MyLibraryActivity.loadFiles env { s with basepath := ['/'] }) with
      selectorIndex := 0, updateRequired := true }, ?_, ?_⟩
    · simp only [MyLibraryActivity.loop, hcond, if_true, hne, and_self, ne_eq,
        not_false_eq_true]
    · simp [MyLibraryActivity.loadFiles, htab]
  · intro he
    simp [MyLibraryActivity.loop, hcond, he]

/-- Witness for C8, amended: in `/A` a long hold on Back leads to the root. -/
theorem long_back_goes_to_root_witness :
    (filesTabDrawn.currentTab = Tab.Files ∧
      (holdBackInput 1000).isPressed Button.Back = true ∧
      (holdBackInput 1000).heldTime ≥ 1000 ∧ filesTabDrawn.basepath ≠ ['/']) ∧
      ∃ s1, filesTabDrawn.loop fileOnlyEnv (holdBackInput 1000) = some (s1, []) ∧
        s1.basepath = ['/'] ∧
        s1.files = listFiles fileOnlyEnv.checkExt (fileOnlyEnv.openDir ['/']) ∧
        s1.selectorIndex = 0 ∧ s1.updateRequired = true ∧ s1.currentTab = Tab.Files :=
  ⟨by decide,
    (long_back_goes_to_root fileOnlyEnv (holdBackInput 1000) filesTabDrawn (by decide)
      (by decide) (by decide)).1 (by decide)⟩

/-! ### The library: navigating up -/

theorem find_last_of_eq_none (l : Str) (c : Char) (h : c ∉ l) : find_last_of l c = none := by
  induction l with
  | nil => rfl
  | cons x xs ih =>
    rw [List.mem_cons, not_or] at h
    simp only [find_last_of, ih h.2]
    rw [if_neg (fun e => h.1 e.symm)]

theorem find_last_of_append (p l : Str) (c : Char) (i : Nat)
    (h : find_last_of l c = some i) : find_last_of (p ++ l) c = some (p.length + i) := by
  induction p with
  | nil => simpa using h
  | cons x xs ih =>
    show find_last_of (x :: (xs ++ l)) c = _
    simp only [find_last_of, ih, List.length_cons, Option.some.injEq]
    omega

theorem find_last_of_split (parent comp : Str) (c : Char) (h : c ∉ comp) :
    find_last_of (parent ++ c :: comp) c = some parent.length := by
  have h1 : find_last_of (c :: comp) c = some 0 := by
    simp [find_last_of, find_last_of_eq_none comp c h]
  simpa using find_last_of_append parent (c :: comp) c 0 h1

theorem findEntryFrom_of_not_mem (name : Str) (l : List Str) (i : Nat) (h : name ∉ l) :
    findEntryFrom name l i = 0 := by
  induction l generalizing i with
  | nil => rfl
  | cons f rest ih =>
    rw [List.mem_cons, not_or] at h
    simp only [findEntryFrom]
    rw [if_neg (fun e => h.1 e.symm)]
    exact ih (i + 1) h.2

theorem findEntryFrom_of_mem (name : Str) (l : List Str) (i : Nat) (h : name ∈ l) :
    ∃ k, findEntryFrom name l i = i + k ∧ l[k]? = some name ∧
      ∀ j, j < k → l[j]? ≠ some name := by
  induction l generalizing i with
  | nil => simp at h
  | cons f rest ih =>
    by_cases hf : f = name
    · refine ⟨0, by simp [findEntryFrom, hf], by simp [hf], ?_⟩
      intro j hj
      omega
    · have hr : name ∈ rest := by
        rcases List.mem_cons.1 h with h | h
        · exact absurd h.symm hf
        · exact h
      obtain ⟨k, h1, h2, h3⟩ := ih (i + 1) hr
      refine ⟨k + 1, ?_, by simpa using h2, ?_⟩
      · simp only [findEntryFrom, if_neg hf, h1]
        omega
      · intro j hj
        cases j with
        | zero => simpa using hf
        | succ j => simpa using h3 j (by omega)

/-- C6, the code at the failing input: in `/A` a Confirm release on the file
`x.epub` leaves `basepath` as `/A/`; a tick in which only Back is released,
after 0 ms, then sets `basepath` to `/A`, the directory already shown, reloads
its listing and selects index 0, instead of going to the parent `/` and
selecting the entry `A/` (index 1 of the root listing), which is what the same
tick does from `basepath = /A`. -/
theorem navigate_up_after_open_file_stays :
    inDirA.basepath = "/A".toList ∧ inDirA.files = ["x.epub".toList] ∧
      inDirA.loop nestedEnv (releaseInput Button.Confirm 0) =
        some (afterOpenFile, [LibraryEvent.onSelectBook "/A/x.epub".toList Tab.Files]) ∧
      afterOpenFile.currentTab = Tab.Files ∧ afterOpenFile.basepath = "/A/".toList ∧
      afterOpenFile.basepath ≠ ['/'] ∧
      afterOpenFile.loop nestedEnv (releaseInput Button.Back 0) =
        some ({ afterOpenFile with
          basepath := "/A".toList, files := ["x.epub".toList], selectorIndex := 0,
          updateRequired := true }, []) ∧
      inDirA.loop nestedEnv (releaseInput Button.Back 0) =
        some ({ inDirA with
          basepath := ['/'], files := ["0/".toList, "A/".toList], selectorIndex := 1,
          updateRequired := true }, []) := by
  decide

/-- With the base path `books`, which holds no `/`, the tick with a short Back
release does not complete: `basepath.replace` is called at `npos` and throws. -/
theorem navigate_up_without_slash_aborts :
    relativePathEntered.currentTab = Tab.Files ∧
      relativePathEntered.basepath = "books".toList ∧
      relativePathEntered.basepath ≠ ['/'] ∧
      relativePathEntered.loop scenarioEnv (releaseInput Button.Back 0) = none := by
  decide

/-- What the navigate-up tick computes: on the Files tab with `basepath = parent
+ "/" + comp`, `comp` free of `/`, and `basepath` other than `/`, a tick in which
only Back is released, after less than 1000 ms, sets `basepath` to `parent` (to
`/` when `parent` is empty), reloads the listing for it, sets the dirty flag and
sets the selection index to the first index of the entry `comp + "/"` of the
reloaded listing, or to 0 when no entry has that name.  For a directory path
`comp` is the directory's name and `parent` its parent directory; for a base
path that ends in `/`, `comp` is empty and `parent` is the directory itself. -/
theorem navigate_up (env : LibraryEnv) (inp : MappedInput) (s : MyLibraryActivity)
    (parent comp : Str) (htab : s.currentTab = Tab.Files)
    (hpath : s.basepath = parent ++ '/' :: comp) (hcomp : '/' ∉ comp)
    (hne : s.basepath ≠ ['/'])
    (hrel : ∀ b, inp.wasReleased b = decide (b = Button.Back))
    (hheld : inp.heldTime < 1000) :
    ∃ s1, s.loop env inp = some (s1, []) ∧
      s1.basepath = (if parent = [] then ['/'] else parent) ∧
      s1.files = listFiles env.checkExt (env.openDir s1.basepath) ∧
      s1.updateRequired = true ∧ s1.currentTab = Tab.Files ∧
      (comp ++ ['/'] ∈ s1.files →
        s1.files[s1.selectorIndex]? = some (comp ++ ['/']) ∧
          ∀ j, j < s1.selectorIndex → s1.files[j]? ≠ some (comp ++ ['/'])) ∧
      (comp ++ ['/'] ∉ s1.files → s1.selectorIndex = 0) := by
  have hlong : ¬ (s.currentTab = Tab.Files ∧ inp.isPressed Button.Back = true ∧
      inp.heldTime ≥ GO_HOME_MS) := by
    simp only [GO_HOME_MS]
    omega
  have hfind : find_last_of s.basepath '/' = some parent.length := by
    rw [hpath]
    exact find_last_of_split parent comp '/' hcomp
  have hshort : inp.heldTime < GO_HOME_MS := hheld
  have htake : List.take parent.length s.basepath = parent := by
    rw [hpath]
    simp
  have hdrop : List.drop (parent.length + 1) s.basepath = comp := by
    rw [hpath, List.drop_append_eq_append_drop]
    simp
  have hnav : s.currentTab = Tab.Files ∧ s.basepath ≠ ['/'] := ⟨htab, hne⟩
  have hempty : (parent.isEmpty = true) ↔ parent = [] := List.isEmpty_iff
  have hconfirm : s.confirmBlock env inp [] = some (Flow.next (s, [])) := by
    simp [MyLibraryActivity.confirmBlock, hrel]
  have hbackRel : inp.wasReleased Button.Back = true := by simp [hrel]
  have hback : s.backBlock env inp [] =
      some ({ (MyLibraryActivity.loadFiles env
          { s with basepath := if parent = [] then ['/'] else parent }) with
        selectorIndex := (MyLibraryActivity.loadFiles env
          { s with basepath := if parent = [] then ['/'] else parent }).findEntry
            (comp ++ ['/'])
        updateRequired := true }, []) := by
    unfold MyLibraryActivity.backBlock
    rw [if_pos hbackRel, if_pos hshort, if_pos hnav]
    simp only [hfind, htake, hdrop, substrAfter, hempty]
  have hmove : ∀ t : MyLibraryActivity, t.moveBlock env inp = some t := by
    intro t
    simp [MyLibraryActivity.moveBlock, hrel]
  refine ⟨{ (MyLibraryActivity.loadFiles env
      { s with basepath := if parent = [] then ['/'] else parent }) with
    selectorIndex := (MyLibraryActivity.loadFiles env
      { s with basepath := if parent = [] then ['/'] else parent }).findEntry (comp ++ ['/'])
    updateRequired := true }, ?_, ?_⟩
  · unfold MyLibraryActivity.loop
    rw [if_neg hlong, hconfirm]
    simp only [hback, hmove]
  · refine ⟨rfl, rfl, rfl, htab, ?_, ?_⟩
    · intro hmem
      obtain ⟨k, h1, h2, h3⟩ := findEntryFrom_of_mem _ _ 0 hmem
      simp only [MyLibraryActivity.findEntry]
      rw [h1, Nat.zero_add]
      exact ⟨h2, h3⟩
    · intro hmem
      exact findEntryFrom_of_not_mem _ _ 0 hmem

/-- The navigate-up tick from `/B`, whose parent is the root. -/
theorem navigate_up_witness :
    (inDirB.currentTab = Tab.Files ∧ inDirB.basepath = [] ++ '/' :: "B".toList ∧
      '/' ∉ "B".toList ∧ inDirB.basepath ≠ ['/'] ∧
      (∀ b, (releaseInput Button.Back 0).wasReleased b = decide (b = Button.Back)) ∧
      (releaseInput Button.Back 0).heldTime < 1000) ∧
      ∃ s1, inDirB.loop twoDirsEnv (releaseInput Button.Back 0) = some (s1, []) ∧
        s1.basepath = (if ([] : Str) = [] then ['/'] else []) ∧
        s1.files = listFiles twoDirsEnv.checkExt (twoDirsEnv.openDir s1.basepath) ∧
        s1.updateRequired = true ∧ s1.currentTab = Tab.Files ∧
        ("B".toList ++ ['/'] ∈ s1.files →
          s1.files[s1.selectorIndex]? = some ("B".toList ++ ['/']) ∧
            ∀ j, j < s1.selectorIndex → s1.files[j]? ≠ some ("B".toList ++ ['/'])) ∧
        ("B".toList ++ ['/'] ∉ s1.files → s1.selectorIndex = 0) :=
  ⟨⟨by decide, by decide, by decide, by decide, fun _ => rfl, by decide⟩,
    navigate_up twoDirsEnv (releaseInput Button.Back 0) inDirB [] "B".toList (by decide)
      (by decide) (by decide) (by decide) (fun _ => rfl) (by decide)⟩

/-! ### Where the dirty flag is set -/

theorem home_loop_dirty (inp : MappedInput) (s : HomeActivity) :
    (s.loop inp).1 = s ∨ (s.loop inp).1.updateRequired = true := by
  unfold HomeActivity.loop
  simp only
  split_ifs <;> simp

theorem moveBlock_dirty (env : LibraryEnv) (inp : MappedInput) (s t : MyLibraryActivity)
    (h : s.moveBlock env inp = some t) : t = s ∨ t.updateRequired = true := by
  unfold MyLibraryActivity.moveBlock at h
  simp only at h
  split_ifs at h <;> simp at h <;> subst h <;> simp

theorem backBlock_dirty (env : LibraryEnv) (inp : MappedInput) (s t : MyLibraryActivity)
    (ev ev2 : List LibraryEvent) (h : s.backBlock env inp ev = some (t, ev2)) :
    t = s ∨ t.updateRequired = true := by
  unfold MyLibraryActivity.backBlock at h
  simp only at h
  split_ifs at h
  · split at h
    · cases h
    · simp only [Option.some.injEq, Prod.mk.injEq] at h
      right
      rw [← h.1]
  · simp only [Option.some.injEq, Prod.mk.injEq] at h
    exact Or.inl h.1.symm
  · simp only [Option.some.injEq, Prod.mk.injEq] at h
    exact Or.inl h.1.symm
  · simp only [Option.some.injEq, Prod.mk.injEq] at h
    exact Or.inl h.1.symm

theorem confirmBlock_dirty (env : LibraryEnv) (inp : MappedInput) (s t : MyLibraryActivity)
    (ev ev2 : List LibraryEvent)
    (h : s.confirmBlock env inp ev = some (Flow.next (t, ev2)) ∨
      s.confirmBlock env inp ev = some (Flow.ret (t, ev2))) :
    t = s ∨ t = { s with basepath := s.basepath ++ ['/'] } ∨ t.updateRequired = true := by
  unfold MyLibraryActivity.confirmBlock at h
  simp only at h
  split_ifs at h with h1 h2 h3 h4 h5
  · split at h
    · simp only [Option.some.injEq, Flow.next.injEq, Prod.mk.injEq, reduceCtorEq, or_false] at h
      exact Or.inl h.1.symm
    · simp at h
  · simp only [Option.some.injEq, Flow.next.injEq, Prod.mk.injEq, reduceCtorEq, or_false] at h
    exact Or.inl h.1.symm
  · simp only [Option.some.injEq, Flow.ret.injEq, Prod.mk.injEq, reduceCtorEq, false_or] at h
    exact Or.inl h.1.symm
  · split at h
    · simp at h
    · split_ifs at h
      · simp only [Option.some.injEq, Flow.next.injEq, Prod.mk.injEq, reduceCtorEq,
          or_false] at h
        right; right
        rw [← h.1]
      · simp only [Option.some.injEq, Flow.next.injEq, Prod.mk.injEq, reduceCtorEq,
          or_false] at h
        right; left
        exact h.1.symm
  · split at h
    · simp at h
    · split_ifs at h
      · simp only [Option.some.injEq, Flow.next.injEq, Prod.mk.injEq, reduceCtorEq,
          or_false] at h
        right; right
        rw [← h.1]
      · simp only [Option.some.injEq, Flow.next.injEq, Prod.mk.injEq, reduceCtorEq,
          or_false] at h
        left
        exact h.1.symm
  · simp only [Option.some.injEq, Flow.next.injEq, Prod.mk.injEq, reduceCtorEq, or_false] at h
    exact Or.inl h.1.symm

/-- Apart from the `/` appended to `basepath` when a file is opened, every tick
of `MyLibraryActivity::loop` that changes the state sets the dirty flag. -/
theorem library_loop_dirty (env : LibraryEnv) (inp : MappedInput) (s t : MyLibraryActivity)
    (ev : List LibraryEvent) (h : s.loop env inp = some (t, ev)) :
    t = s ∨ t = { s with basepath := s.basepath ++ ['/'] } ∨ t.updateRequired = true := by
  unfold MyLibraryActivity.loop at h
  split_ifs at h
  · simp only [Option.some.injEq, Prod.mk.injEq] at h
    right; right
    rw [← h.1]
  · simp only [Option.some.injEq, Prod.mk.injEq] at h
    exact Or.inl h.1.symm
  · split at h
    · cases h
    · rename_i r hc
      simp only [Option.some.injEq] at h
      subst h
      exact confirmBlock_dirty env inp s t [] ev (Or.inr hc)
    · rename_i s1 ev1 hc
      have h1 := confirmBlock_dirty env inp s s1 [] ev1 (Or.inl hc)
      split at h
      · cases h
      · rename_i s2 ev2 hb
        have h2 := backBlock_dirty env inp s1 s2 ev1 ev2 hb
        split at h
        · cases h
        · rename_i s3 hm
          have h3 := moveBlock_dirty env inp s2 s3 hm
          simp only [Option.some.injEq, Prod.mk.injEq] at h
          obtain ⟨h, -⟩ := h
          subst h
          rcases h3 with h3 | h3
          · subst h3
            rcases h2 with h2 | h2
            · subst h2
              exact h1
            · exact Or.inr (Or.inr h2)
          · exact Or.inr (Or.inr h3)

/-! ### The first render passes of the home screen -/

theorem renderCounting_fst (env : HomeEnv) (r : Renderer) (s : HomeActivity) :
    (s.renderCounting env r).map Prod.fst = s.render env r := by
  unfold HomeActivity.renderCounting HomeActivity.render
  simp only [Option.map_map]
  split_ifs <;> simp [Option.map_map, Function.comp_def]

theorem displayTaskPassCounting_fst (env : HomeEnv) (r : Renderer) (s : HomeActivity) :
    (s.displayTaskPassCounting env r).map Prod.fst = s.displayTaskPass env r := by
  unfold HomeActivity.displayTaskPassCounting HomeActivity.displayTaskPass
  split
  · exact renderCounting_fst env r _
  · rfl

theorem loop_flags (inp : MappedInput) (s : HomeActivity) :
    (s.loop inp).1.firstRenderDone = s.firstRenderDone ∧
      (s.loop inp).1.recentsLoaded = s.recentsLoaded ∧
      (s.loop inp).1.recentsLoading = s.recentsLoading ∧
      (s.loop inp).1.hasContinueReading = s.hasContinueReading ∧
      (s.updateRequired = true → (s.loop inp).1.updateRequired = true) := by
  unfold HomeActivity.loop
  simp only
  split_ifs <;> simp

theorem sameFlags_of_ticks (s t : HomeActivity) (h : Relation.ReflTransGen HomeTick s t) :
    SameFlags s t := by
  induction h with
  | refl => exact ⟨rfl, rfl, rfl, rfl, fun h => h⟩
  | tail _ hstep ih =>
    cases hstep with
    | tick inp =>
      obtain ⟨h1, h2, h3, h4, h5⟩ := loop_flags inp _
      obtain ⟨i1, i2, i3, i4, i5⟩ := ih
      exact ⟨h1.trans i1, h2.trans i2, h3.trans i3, h4.trans i4, fun h => h5 (i5 h)⟩

theorem storeCoverBuffer_recentsLoaded (r : Renderer) (mallocOk : Bool) (s : HomeActivity) :
    (s.storeCoverBuffer r mallocOk).2.recentsLoaded = s.recentsLoaded :=
  (storeCoverBuffer_fields r mallocOk s).2.2.2

theorem renderCounting_loaded (env : HomeEnv) (r : Renderer) (s : HomeActivity)
    (h : s.recentsLoaded = true) :
    ∃ t, s.renderCounting env r = some (t, 0) ∧ t.recentsLoaded = true := by
  unfold HomeActivity.renderCounting
  simp only [h, if_true]
  split_ifs
  all_goals
    refine ⟨_, rfl, ?_⟩
    simp [(finishRender_fields _).2.2.2, storeCoverBuffer_recentsLoaded, h]

theorem displayTaskPassCounting_loaded (env : HomeEnv) (r : Renderer) (s : HomeActivity)
    (h : s.recentsLoaded = true) :
    ∃ t, s.displayTaskPassCounting env r = some (t, 0) ∧ t.recentsLoaded = true := by
  unfold HomeActivity.displayTaskPassCounting
  split
  · exact renderCounting_loaded env r _ h
  · exact ⟨s, rfl, h⟩

theorem loaded_of_steps (s t : HomeActivity) (h : Relation.ReflTransGen HomeStep s t)
    (hs : s.recentsLoaded = true) : t.recentsLoaded = true := by
  induction h with
  | refl => exact hs
  | tail _ hstep ih =>
    cases hstep with
    | tick inp => exact (loop_flags inp _).2.1.trans ih
    | display env r _ _ hpass =>
      obtain ⟨u, hu, hl⟩ := displayTaskPassCounting_loaded env r _ ih
      have hfst := congrArg (Option.map Prod.fst) hu
      rw [displayTaskPassCounting_fst, hpass] at hfst
      simp only [Option.map_some', Option.some.injEq] at hfst
      rw [hfst]
      exact hl
    | enter env => exact ih

theorem first_pass (env : HomeEnv) (r : Renderer) (s : HomeActivity)
    (hupd : s.updateRequired = true) (hfirst : s.firstRenderDone = false)
    (hloaded : s.recentsLoaded = false) :
    s.displayTaskPassCounting env r =
      some ({ s with firstRenderDone := true, updateRequired := true }, 0) := by
  unfold HomeActivity.displayTaskPassCounting HomeActivity.renderCounting
  simp only [hupd, if_true, hfirst, hloaded, Bool.false_eq_true, if_false, Bool.and_false]
  split_ifs <;> simp [HomeActivity.finishRender, hfirst]

theorem second_pass (env : HomeEnv) (r : Renderer) (s : HomeActivity)
    (hcap : 0 ≤ env.homeRecentBooksCount)
    (hupd : s.updateRequired = true) (hfirst : s.firstRenderDone = true)
    (hloaded : s.recentsLoaded = false) (hloading : s.recentsLoading = false)
    (hbook : s.hasContinueReading = true) :
    ∃ t, s.displayTaskPassCounting env r = some (t, 1) ∧ t.recentsLoaded = true ∧
      t.updateRequired = true := by
  have hmin : ¬ min (env.books.length : Int) env.homeRecentBooksCount < 0 := by
    have : (0 : Int) ≤ (env.books.length : Int) := Int.ofNat_nonneg _
    rw [min_lt_iff]
    omega
  unfold HomeActivity.displayTaskPassCounting HomeActivity.renderCounting
    HomeActivity.loadRecentBooks
  simp [hupd, hfirst, hloaded, hloading, hbook, hmin, HomeActivity.finishRender]

/-- With a negative `homeRecentBooksCount` the pass that loads the recent books
does not return: `reserve` throws. -/
theorem second_pass_negative_cap (env : HomeEnv) (r : Renderer) (s : HomeActivity)
    (hcap : env.homeRecentBooksCount < 0)
    (hupd : s.updateRequired = true) (hfirst : s.firstRenderDone = true)
    (hloaded : s.recentsLoaded = false) (hloading : s.recentsLoading = false)
    (hbook : s.hasContinueReading = true) :
    s.displayTaskPassCounting env r = none := by
  have hmin : min (env.books.length : Int) env.homeRecentBooksCount < 0 := by
    rw [min_lt_iff]
    exact Or.inr hcap
  unfold HomeActivity.displayTaskPassCounting HomeActivity.renderCounting
    HomeActivity.loadRecentBooks
  simp [hupd, hfirst, hloaded, hloading, hbook, hmin]

/-- C11: from the state after `onEnter` with `firstRenderDone`, `recentsLoaded`
and `recentsLoading` false and a continue-reading book present, the first render
pass of the display task returns, makes no call of `loadRecentBooks` and ends
with `firstRenderDone` and `updateRequired` true; after any loop ticks, the next
render pass (the theme's `homeRecentBooksCount` being non-negative) returns,
calls `loadRecentBooks` exactly once and ends with `recentsLoaded` and
`updateRequired` true; after that, whatever loop ticks, display-task iterations
and `onEnter` calls follow, every pass returns without a call of
`loadRecentBooks`. -/
theorem first_render_bootstrapping (env : HomeEnv) (s : HomeActivity)
    (hfirst : (s.onEnter env).firstRenderDone = false)
    (hloaded : (s.onEnter env).recentsLoaded = false)
    (hloading : (s.onEnter env).recentsLoading = false)
    (hbook : (s.onEnter env).hasContinueReading = true)
    (env1 : HomeEnv) (r1 : Renderer) :
    ∃ s1, (s.onEnter env).displayTaskPassCounting env1 r1 = some (s1, 0) ∧
      s1.firstRenderDone = true ∧ s1.updateRequired = true ∧
      ∀ s1', Relation.ReflTransGen HomeTick s1 s1' →
        ∀ (env2 : HomeEnv) (r2 : Renderer), 0 ≤ env2.homeRecentBooksCount →
          ∃ s2, s1'.displayTaskPassCounting env2 r2 = some (s2, 1) ∧
            s2.recentsLoaded = true ∧ s2.updateRequired = true ∧
            ∀ t, Relation.ReflTransGen HomeStep s2 t →
              ∀ (env3 : HomeEnv) (r3 : Renderer),
                ∃ t', t.displayTaskPassCounting env3 r3 = some (t', 0) := by
  have hupd : (s.onEnter env).updateRequired = true := rfl
  refine ⟨_, first_pass env1 r1 (s.onEnter env) hupd hfirst hloaded, rfl, rfl, ?_⟩
  intro s1 hticks env2 r2 hcap
  obtain ⟨f1, f2, f3, f4, f5⟩ := sameFlags_of_ticks _ _ hticks
  obtain ⟨s2, h2, h3, h4⟩ := second_pass env2 r2 s1 hcap (f5 rfl) f1 (f2.trans hloaded)
    (f3.trans hloading) (f4.trans hbook)
  refine ⟨s2, h2, h3, h4, ?_⟩
  intro t hsteps env3 r3
  obtain ⟨t', ht, -⟩ := displayTaskPassCounting_loaded env3 r3 t (loaded_of_steps _ t hsteps h3)
  exact ⟨t', ht⟩

/-- Witness for C11: the home screen of `untitledEpubEnv`, whose continue-reading
book exists, entered from the freshly constructed activity. -/
theorem first_render_bootstrapping_witness :
    ((HomeActivity.create.onEnter untitledEpubEnv).firstRenderDone = false ∧
      (HomeActivity.create.onEnter untitledEpubEnv).recentsLoaded = false ∧
      (HomeActivity.create.onEnter untitledEpubEnv).recentsLoading = false ∧
      (HomeActivity.create.onEnter untitledEpubEnv).hasContinueReading = true ∧
      0 ≤ untitledEpubEnv.homeRecentBooksCount) ∧
      ∃ s1, (HomeActivity.create.onEnter untitledEpubEnv).displayTaskPassCounting
          untitledEpubEnv ⟨none, 0⟩ = some (s1, 0) ∧
        ∃ s2, s1.displayTaskPassCounting untitledEpubEnv ⟨none, 0⟩ = some (s2, 1) ∧
          s2.recentsLoaded = true :=
  ⟨by decide,
    (first_render_bootstrapping untitledEpubEnv HomeActivity.create (by decide) (by decide)
      (by decide) (by decide) untitledEpubEnv ⟨none, 0⟩).elim
      (fun s1 h => ⟨s1, h.1,
        (h.2.2.2 s1 Relation.ReflTransGen.refl untitledEpubEnv ⟨none, 0⟩ (by decide)).elim
          (fun s2 h2 => ⟨s2, h2.1, h2.2.1⟩)⟩)⟩

/-! ### The library: remainders by `files.size()` -/

/-- With a non-empty listing and a non-zero page size the up/down block
completes: no quotient or remainder is taken by zero. -/
theorem moveBlock_completes (env : LibraryEnv) (inp : MappedInput) (s : MyLibraryActivity)
    (hfiles : s.files ≠ []) (hpage : toSizeT env.pageItems ≠ 0) :
    ∃ t, s.moveBlock env inp = some t := by
  have hlen : s.files.length ≠ 0 := by
    intro h
    exact hfiles (List.length_eq_zero.1 h)
  unfold MyLibraryActivity.moveBlock
  simp only [hlen, hpage, or_self, if_false]
  split_ifs <;> exact ⟨_, rfl⟩

/-- C12, the code at the failing input: the library entered on the Files tab of
a card whose root directory lists nothing has `files.size() == 0`; with 10
items per page, an up or down release, short or long, reaches the up/down block,
whose remainder is then taken by zero, and the tick does not complete. -/
theorem empty_listing_step_divides_by_zero :
    emptyCardEntered.files.length = 0 ∧ 0 < emptyCardEnv.pageItems ∧
      emptyCardEntered.moveBlock emptyCardEnv (releaseInput Button.Right 0) = none ∧
      emptyCardEntered.loop emptyCardEnv (releaseInput Button.Right 0) = none ∧
      emptyCardEntered.loop emptyCardEnv (releaseInput Button.Left 0) = none ∧
      emptyCardEntered.loop emptyCardEnv (releaseInput Button.Right 701) = none ∧
      emptyCardEntered.loop emptyCardEnv (releaseInput Button.Left 701) = none := by
  decide

end CrossPoint
